import Mathlib

/-!
Shallow embedding of the VLC HTTP connection manager
(`modules/access/http/connmgr.c`).

Opaque C handles (`vlc_tls_t *`, `struct vlc_http_conn *`,
`struct vlc_http_stream *`, `struct vlc_http_msg *`,
`vlc_tls_creds_t *`) are modelled as `Nat` identifiers.  External
collaborators (TCP/TLS dialing, proxy lookup, URL parsing, the HTTP/1.1
and HTTP/2 connection constructors, stream open and initial-message
fetch) are modelled as an oracle record `Env`; a `none` result models
the collaborator returning `NULL`.  Every embedded function returns,
besides its C return value and the updated manager state, a trace of
observable effect events (`Ev`) so that claims about the number of dial
attempts, stream-open attempts, releases and installs can be stated.
-/

namespace ConnMgr

/-- Result of `vlc_UrlParse` on a proxy URL: the `psz_host` field
(`none` models `NULL`) and the `i_port` field (`0` means the URL
carries no port). -/
structure ParsedUrl where
  host : Option String
  port : Nat
deriving Repr, DecidableEq

/-- Observable effect events emitted by the connection manager:
dial attempts (TCP, direct TLS, or TLS through a CONNECT proxy),
stream-open attempts, connection construction, transport close,
cache-slot release and install, and TLS credential creation/deletion.
`credsCreate` is emitted when `vlc_tls_ClientCreate` succeeds;
`release c` corresponds to `vlc_http_mgr_release` (which asserts the
slot holds `c`, clears it and releases the connection); `install c`
corresponds to the `mgr->conn = conn` assignment. -/
inductive Ev where
  | credsCreate : Ev
  | credsDelete : Ev
  | dialTcp (host : String) (port : Nat) : Ev
  | dialTls (host : String) (port : Nat) (alpn : List String) : Ev
  | dialProxyTls (proxy : String) : Ev
  | streamOpen (conn : Nat) : Ev
  | connCreateH2 (tls : Nat) : Ev
  | connCreateH1 (tls : Nat) (proxied : Bool) : Ev
  | tlsClose (tls : Nat) : Ev
  | release (conn : Nat) : Ev
  | install (conn : Nat) : Ev
deriving Repr, DecidableEq

/-- Oracle record for the external collaborators of `connmgr.c`.
Each field models one external C function; `none` models `NULL`. -/
structure Env where
  /-- `vlc_tls_ClientCreate(obj)`. -/
  clientCreate : Option Nat
  /-- `vlc_http_proxy_find(host, port, secure)`: the proxy URL
  applicable to the target, or `none`. -/
  proxyFind : String → Nat → Bool → Option String
  /-- `vlc_UrlParse` applied to a proxy URL string. -/
  urlParse : String → ParsedUrl
  /-- `vlc_https_connect_proxy(obj, creds, host, port, &two, proxy)`:
  returns the transport (or `none`) and the updated `http_two` flag. -/
  httpsConnectProxy : String → Nat → Bool → String → Option Nat × Bool
  /-- `vlc_tls_SocketOpenTLS(creds, name, port, "https", alpn, &alp)`:
  returns the TLS transport and the negotiated ALPN string, or `none`. -/
  tlsOpen : String → Nat → List String → Option (Nat × Option String)
  /-- `vlc_tls_SocketOpenTCP(obj, host, port)`. -/
  tcpOpen : String → Nat → Option Nat
  /-- `vlc_h2_conn_create(obj, tls)`. -/
  h2Create : Nat → Option Nat
  /-- `vlc_h1_conn_create(obj, tls, proxied)`. -/
  h1Create : Nat → Bool → Option Nat
  /-- `vlc_http_stream_open(conn, req)`. -/
  streamOpen : Nat → Nat → Option Nat
  /-- `vlc_http_msg_get_initial(stream)`. -/
  msgGetInitial : Nat → Option Nat

/-- `struct vlc_http_mgr`: host object, lazily created TLS credentials,
cookie jar, single cached connection slot, and the `use_h2c` flag. -/
structure Mgr where
  obj : Nat
  creds : Option Nat
  jar : Option Nat
  conn : Option Nat
  use_h2c : Bool
deriving Repr, DecidableEq

/-- `vlc_https_connect(creds, name, port, &two)` (connmgr.c:55-73):
replaces port 0 by 443, offers ALPN `{h2, http/1.1}` when `*two` is
set on input and `{http/1.1}` otherwise (`alpn + !*two`), and on
success rewrites `*two` to whether the negotiated string is `"h2"`.
Returns (transport, updated `two`, trace). -/
def vlc_https_connect (env : Env) (name : String) (port : Nat) (two : Bool) :
    Option Nat × Bool × List Ev :=
  let p := if port = 0 then 443 else port
  let offered := if two then ["h2", "http/1.1"] else ["http/1.1"]
  match env.tlsOpen name p offered with
  | none => (none, two, [Ev.dialTls name p offered])
  | some (tls, alp) =>
      (some tls, decide (alp = some "h2"), [Ev.dialTls name p offered])

/-- `vlc_https_connect_i11e` (connmgr.c:94-111): looks up a proxy for
the secure target; if one is found, delegates to
`vlc_https_connect_proxy`, else dials TLS directly. -/
def vlc_https_connect_i11e (env : Env) (host : String) (port : Nat)
    (two : Bool) : Option Nat × Bool × List Ev :=
  match env.proxyFind host port true with
  | some proxy =>
      let r := env.httpsConnectProxy host port two proxy
      (r.1, r.2, [Ev.dialProxyTls proxy])
  | none => vlc_https_connect env host port two

/-- `vlc_http_connect_i11e` (connmgr.c:113-140): looks up a proxy for
the plaintext target.  With a proxy, parses its URL and opens TCP to
the proxy host with port 80 as default (`url.i_port ? url.i_port : 80`),
or yields `none` when the parsed URL has no host.  Without a proxy,
opens TCP to `(host, port ? port : 80)`.  The second component is the
`*proxied` out-flag, set to whether a proxy string was found. -/
def vlc_http_connect_i11e (env : Env) (host : String) (port : Nat) :
    Option Nat × Bool × List Ev :=
  match env.proxyFind host port false with
  | some proxy =>
      let url := env.urlParse proxy
      match url.host with
      | some phost =>
          let p := if url.port = 0 then 80 else url.port
          (env.tcpOpen phost p, true, [Ev.dialTcp phost p])
      | none => (none, true, [])
  | none =>
      let p := if port = 0 then 80 else port
      (env.tcpOpen host p, false, [Ev.dialTcp host p])

/-- `vlc_http_mgr_find(mgr, host, port)` (connmgr.c:152-157): returns
the cached connection; `host` and `port` are explicitly ignored
(`(void) host; (void) port;`). -/
def vlc_http_mgr_find (mgr : Mgr) (host : String) (port : Nat) :
    Option Nat :=
  mgr.conn

/-- `vlc_http_mgr_release(mgr, conn)` (connmgr.c:159-166): asserts
`mgr->conn == conn`, clears the slot and releases the connection.  The
assert itself is checked separately (see `slotRun`). -/
def vlc_http_mgr_release (mgr : Mgr) (conn : Nat) : Mgr × List Ev :=
  ({ mgr with conn := none }, [Ev.release conn])

/-- `vlc_http_mgr_reuse(mgr, host, port, req)` (connmgr.c:168-192):
if no connection is cached, returns `none`; otherwise opens a stream
with `req`; on stream-open failure or initial-message failure releases
the connection and returns `none`; on success returns the initial
message with the slot untouched. -/
def vlc_http_mgr_reuse (env : Env) (mgr : Mgr) (host : String) (port : Nat)
    (req : Nat) : Option Nat × Mgr × List Ev :=
  match vlc_http_mgr_find mgr host port with
  | none => (none, mgr, [])
  | some conn =>
      match env.streamOpen conn req with
      | none =>
          let r := vlc_http_mgr_release mgr conn
          (none, r.1, Ev.streamOpen conn :: r.2)
      | some stream =>
          match env.msgGetInitial stream with
          | some m => (some m, mgr, [Ev.streamOpen conn])
          | none =>
              let r := vlc_http_mgr_release mgr conn
              (none, r.1, Ev.streamOpen conn :: r.2)

/-- Tail of `vlc_https_request` once credentials exist
(connmgr.c:208-240): first reuse pass, TLS dial with `http2 := true`,
construction of an HTTP/2 or HTTP/1.1 (with `proxied = false`)
connection according to the negotiated version, install into the slot,
and second reuse pass. -/
def vlc_https_request_tail (env : Env) (mgr0 : Mgr) (host : String)
    (port : Nat) (req : Nat) : Option Nat × Mgr × List Ev :=
  match vlc_http_mgr_reuse env mgr0 host port req with
  | (some resp, mgr1, ev1) => (some resp, mgr1, ev1)
  | (none, mgr1, ev1) =>
      match vlc_https_connect_i11e env host port true with
      | (none, _, evd) => (none, mgr1, ev1 ++ evd)
      | (some tls, http2, evd) =>
          match (if http2 then (env.h2Create tls, [Ev.connCreateH2 tls])
                 else (env.h1Create tls false,
                       [Ev.connCreateH1 tls false])) with
          | (none, evc) =>
              (none, mgr1, ev1 ++ evd ++ evc ++ [Ev.tlsClose tls])
          | (some conn, evc) =>
              let mgr2 := { mgr1 with conn := some conn }
              let r2 := vlc_http_mgr_reuse env mgr2 host port req
              (r2.1, r2.2.1,
               ev1 ++ evd ++ evc ++ Ev.install conn :: r2.2.2)

/-- `vlc_https_request(mgr, host, port, req)` (connmgr.c:194-241):
scheme-mix check (no credentials but an occupied slot means the slot
holds a plaintext connection), lazy credential creation via
`vlc_tls_ClientCreate`, then `vlc_https_request_tail`. -/
def vlc_https_request (env : Env) (mgr : Mgr) (host : String) (port : Nat)
    (req : Nat) : Option Nat × Mgr × List Ev :=
  if mgr.creds = none ∧ mgr.conn ≠ none then
    (none, mgr, [])
  else
    match mgr.creds, env.clientCreate with
    | none, none => (none, mgr, [])
    | none, some c =>
        let r := vlc_https_request_tail env { mgr with creds := some c }
                   host port req
        (r.1, r.2.1, Ev.credsCreate :: r.2.2)
    | some _, _ => vlc_https_request_tail env mgr host port req

/-- Tail of `vlc_http_request` after the scheme-mix check
(connmgr.c:250-274): first reuse pass, plaintext dial recording the
`proxied` flag, construction of an HTTP/2 (when `use_h2c`) or
HTTP/1.1 (with the observed `proxied` flag) connection, install into
the slot, and second reuse pass. -/
def vlc_http_request_tail (env : Env) (mgr0 : Mgr) (host : String)
    (port : Nat) (req : Nat) : Option Nat × Mgr × List Ev :=
  match vlc_http_mgr_reuse env mgr0 host port req with
  | (some resp, mgr1, ev1) => (some resp, mgr1, ev1)
  | (none, mgr1, ev1) =>
      match vlc_http_connect_i11e env host port with
      | (none, _, evd) => (none, mgr1, ev1 ++ evd)
      | (some tls, proxy, evd) =>
          match (if mgr1.use_h2c then (env.h2Create tls, [Ev.connCreateH2 tls])
                 else (env.h1Create tls proxy,
                       [Ev.connCreateH1 tls proxy])) with
          | (none, evc) =>
              (none, mgr1, ev1 ++ evd ++ evc ++ [Ev.tlsClose tls])
          | (some conn, evc) =>
              let mgr2 := { mgr1 with conn := some conn }
              let r2 := vlc_http_mgr_reuse env mgr2 host port req
              (r2.1, r2.2.1,
               ev1 ++ evd ++ evc ++ Ev.install conn :: r2.2.2)

/-- `vlc_http_request(mgr, host, port, req)` (connmgr.c:243-275):
scheme-mix check (credentials plus an occupied slot means the slot
holds a TLS connection), then `vlc_http_request_tail`. -/
def vlc_http_request (env : Env) (mgr : Mgr) (host : String) (port : Nat)
    (req : Nat) : Option Nat × Mgr × List Ev :=
  if mgr.creds ≠ none ∧ mgr.conn ≠ none then
    (none, mgr, [])
  else
    vlc_http_request_tail env mgr host port req

/-- `vlc_http_mgr_request(mgr, https, host, port, m)`
(connmgr.c:277-282): dispatch on the `https` flag. -/
def vlc_http_mgr_request (env : Env) (mgr : Mgr) (https : Bool)
    (host : String) (port : Nat) (m : Nat) : Option Nat × Mgr × List Ev :=
  if https then vlc_https_request env mgr host port m
  else vlc_http_request env mgr host port m

/-- `vlc_http_mgr_get_jar(mgr)` (connmgr.c:284-287). -/
def vlc_http_mgr_get_jar (mgr : Mgr) : Option Nat :=
  mgr.jar

/-- `vlc_http_mgr_create(obj, jar, h2c)` (connmgr.c:289-303):
credentials and connection slot start out `NULL`. -/
def vlc_http_mgr_create (obj : Nat) (jar : Option Nat) (h2c : Bool) : Mgr :=
  { obj := obj, creds := none, jar := jar, conn := none, use_h2c := h2c }

/-- `vlc_http_mgr_destroy(mgr)` (connmgr.c:305-312): releases the
cached connection if any, then deletes the credentials if any. -/
def vlc_http_mgr_destroy (mgr : Mgr) : List Ev :=
  (match mgr.conn with
   | some conn => [Ev.release conn]
   | none => []) ++
  (match mgr.creds with
   | some _ => [Ev.credsDelete]
   | none => [])

/-- Sequential execution of `vlc_http_mgr_request` calls against one
manager, threading the manager state and concatenating the effect
traces; models a caller issuing several requests between
`vlc_http_mgr_create` and `vlc_http_mgr_destroy`. -/
def vlc_http_mgr_run (env : Env) (mgr : Mgr) :
    List (Bool × String × Nat × Nat) → Mgr × List Ev
  | [] => (mgr, [])
  | (https, host, port, req) :: rest =>
      let r := vlc_http_mgr_request env mgr https host port req
      let rr := vlc_http_mgr_run env r.2.1 rest
      (rr.1, r.2.2 ++ rr.2)

/-- Whether an event is a dial attempt (TCP connect, TLS handshake, or
proxy CONNECT tunnel). -/
def Ev.isDial : Ev → Bool
  | .dialTcp _ _ => true
  | .dialTls _ _ _ => true
  | .dialProxyTls _ => true
  | _ => false

/-- Whether an event is a stream-open attempt. -/
def Ev.isStreamOpen : Ev → Bool
  | .streamOpen _ => true
  | _ => false

/-- Whether an event is a successful TLS credentials creation. -/
def Ev.isCredsCreate : Ev → Bool
  | .credsCreate => true
  | _ => false

/-- Whether an event is a TLS credentials deletion. -/
def Ev.isCredsDelete : Ev → Bool
  | .credsDelete => true
  | _ => false

/-- Number of dial attempts in a trace. -/
def dialCount (t : List Ev) : Nat :=
  (t.filter Ev.isDial).length

/-- Number of stream-open attempts in a trace. -/
def streamOpenCount (t : List Ev) : Nat :=
  (t.filter Ev.isStreamOpen).length

/-- Number of successful credential creations in a trace. -/
def credsCreateCount (t : List Ev) : Nat :=
  (t.filter Ev.isCredsCreate).length

/-- Number of credential deletions in a trace. -/
def credsDeleteCount (t : List Ev) : Nat :=
  (t.filter Ev.isCredsDelete).length

/-- Replays the cache-slot effects of a trace starting from slot state
`cur`.  `install c` requires the slot to be empty (the code's implicit
precondition) and fills it; `release c` requires the slot to hold
exactly `c` (the `assert(mgr->conn == conn)` in
`vlc_http_mgr_release`) and empties it.  A violated precondition
yields `none`; otherwise the final slot state is returned. -/
def slotRun : Option Nat → List Ev → Option (Option Nat)
  | cur, [] => some cur
  | cur, Ev.install c :: t =>
      if cur = none then slotRun (some c) t else none
  | cur, Ev.release c :: t =>
      if cur = some c then slotRun none t else none
  | cur, _ :: t => slotRun cur t

/-! ### Helper lemmas -/

theorem slotRun_append (s : Option Nat) (t1 t2 : List Ev) :
    slotRun s (t1 ++ t2) = (slotRun s t1).bind (fun s' => slotRun s' t2) := by
  induction t1 generalizing s with
  | nil => simp [slotRun]
  | cons e t ih =>
      cases e <;> simp only [List.cons_append, slotRun] <;>
        first
          | exact ih s
          | (split <;> simp [ih])

/-- Events that are neither installs nor releases leave the slot replay
unchanged. -/
theorem slotRun_neutral (s : Option Nat) (t : List Ev)
    (h : ∀ e ∈ t, (∀ c, e ≠ Ev.install c) ∧ (∀ c, e ≠ Ev.release c)) :
    slotRun s t = some s := by
  induction t with
  | nil => rfl
  | cons e t ih =>
      have he := h e (by simp)
      have ht : ∀ e' ∈ t, (∀ c, e' ≠ Ev.install c) ∧ (∀ c, e' ≠ Ev.release c) :=
        fun e' he' => h e' (by simp [he'])
      cases e with
      | install c => exact absurd rfl (he.1 c)
      | release c => exact absurd rfl (he.2 c)
      | credsCreate => simpa [slotRun] using ih ht
      | credsDelete => simpa [slotRun] using ih ht
      | dialTcp h' p => simpa [slotRun] using ih ht
      | dialTls h' p a => simpa [slotRun] using ih ht
      | dialProxyTls p => simpa [slotRun] using ih ht
      | streamOpen c => simpa [slotRun] using ih ht
      | connCreateH2 t' => simpa [slotRun] using ih ht
      | connCreateH1 t' b => simpa [slotRun] using ih ht
      | tlsClose t' => simpa [slotRun] using ih ht

/-- Bundle of facts about a single `vlc_http_mgr_reuse` call: result,
state and trace in each of the four cases. -/
theorem reuse_elim (env : Env) (mgr : Mgr) (host : String) (port : Nat)
    (req : Nat) :
    (mgr.conn = none ∧
       vlc_http_mgr_reuse env mgr host port req = (none, mgr, [])) ∨
    (∃ c, mgr.conn = some c ∧
      ((env.streamOpen c req = none ∧
          vlc_http_mgr_reuse env mgr host port req =
            (none, { mgr with conn := none },
             [Ev.streamOpen c, Ev.release c])) ∨
       (∃ s, env.streamOpen c req = some s ∧
         ((env.msgGetInitial s = none ∧
             vlc_http_mgr_reuse env mgr host port req =
               (none, { mgr with conn := none },
                [Ev.streamOpen c, Ev.release c])) ∨
          (∃ m, env.msgGetInitial s = some m ∧
             vlc_http_mgr_reuse env mgr host port req =
               (some m, mgr, [Ev.streamOpen c])))))) := by
  rcases hc : mgr.conn with _ | c
  · exact Or.inl ⟨rfl,
      by simp [vlc_http_mgr_reuse, vlc_http_mgr_find, hc]⟩
  · refine Or.inr ⟨c, rfl, ?_⟩
    rcases hs : env.streamOpen c req with _ | s
    · exact Or.inl ⟨rfl,
        by simp [vlc_http_mgr_reuse, vlc_http_mgr_find,
                 vlc_http_mgr_release, hc, hs]⟩
    · refine Or.inr ⟨s, rfl, ?_⟩
      rcases hm : env.msgGetInitial s with _ | m
      · exact Or.inl ⟨rfl,
          by simp [vlc_http_mgr_reuse, vlc_http_mgr_find,
                   vlc_http_mgr_release, hc, hs, hm]⟩
      · exact Or.inr ⟨m, rfl,
          by simp [vlc_http_mgr_reuse, vlc_http_mgr_find,
                   vlc_http_mgr_release, hc, hs, hm]⟩

/-- A reuse call returning `none` leaves the slot empty. -/
theorem reuse_none_conn (env : Env) (mgr : Mgr) (host : String) (port : Nat)
    (req : Nat)
    (h : (vlc_http_mgr_reuse env mgr host port req).1 = none) :
    (vlc_http_mgr_reuse env mgr host port req).2.1.conn = none := by
  rcases reuse_elim env mgr host port req with ⟨hc, he⟩ |
    ⟨c, hc, ⟨_, he⟩ | ⟨s, hs, ⟨_, he⟩ | ⟨m, hm, he⟩⟩⟩ <;> rw [he] at h ⊢
  · exact hc
  · exact absurd h (by simp)

/-- A successful reuse call leaves the manager untouched. -/
theorem reuse_some_state (env : Env) (mgr : Mgr) (host : String) (port : Nat)
    (req : Nat) (m : Nat)
    (h : (vlc_http_mgr_reuse env mgr host port req).1 = some m) :
    (vlc_http_mgr_reuse env mgr host port req).2.1 = mgr := by
  rcases reuse_elim env mgr host port req with ⟨hc, he⟩ |
    ⟨c, hc, ⟨_, he⟩ | ⟨s, hs, ⟨_, he⟩ | ⟨m', hm, he⟩⟩⟩ <;> rw [he] at h ⊢ <;>
    simp at h ⊢

/-- A reuse call only ever empties the slot; all other manager fields
are preserved. -/
theorem reuse_state (env : Env) (mgr : Mgr) (host : String) (port : Nat)
    (req : Nat) :
    (vlc_http_mgr_reuse env mgr host port req).2.1 = mgr ∨
    (vlc_http_mgr_reuse env mgr host port req).2.1 =
      { mgr with conn := none } := by
  rcases reuse_elim env mgr host port req with ⟨hc, he⟩ |
    ⟨c, hc, ⟨_, he⟩ | ⟨s, hs, ⟨_, he⟩ | ⟨m, hm, he⟩⟩⟩ <;> rw [he] <;>
    simp

/-- Slot replay across a reuse trace: preconditions of release hold and
the replayed slot matches the returned manager. -/
theorem reuse_slotRun (env : Env) (mgr : Mgr) (host : String) (port : Nat)
    (req : Nat) :
    slotRun mgr.conn (vlc_http_mgr_reuse env mgr host port req).2.2 =
      some (vlc_http_mgr_reuse env mgr host port req).2.1.conn := by
  rcases reuse_elim env mgr host port req with ⟨hc, he⟩ |
    ⟨c, hc, ⟨_, he⟩ | ⟨s, hs, ⟨_, he⟩ | ⟨m, hm, he⟩⟩⟩ <;> rw [he] <;>
    simp [slotRun, hc]

/-- Trace accounting for a single reuse call: no dials, at most one
stream-open attempt, no credential events. -/
theorem reuse_counts (env : Env) (mgr : Mgr) (host : String) (port : Nat)
    (req : Nat) :
    dialCount (vlc_http_mgr_reuse env mgr host port req).2.2 = 0 ∧
    streamOpenCount (vlc_http_mgr_reuse env mgr host port req).2.2 ≤ 1 ∧
    credsCreateCount (vlc_http_mgr_reuse env mgr host port req).2.2 = 0 := by
  rcases reuse_elim env mgr host port req with ⟨hc, he⟩ |
    ⟨c, hc, ⟨_, he⟩ | ⟨s, hs, ⟨_, he⟩ | ⟨m, hm, he⟩⟩⟩ <;> rw [he] <;>
    simp [dialCount, streamOpenCount, credsCreateCount,
          Ev.isDial, Ev.isStreamOpen, Ev.isCredsCreate, List.filter]

/-- The result, trace and final slot of a reuse call do not depend on
the credentials field (the code only reads `mgr->conn`). -/
theorem reuse_creds_irrel (env : Env) (mgr : Mgr) (c : Nat) (host : String)
    (port req : Nat) :
    (vlc_http_mgr_reuse env { mgr with creds := some c } host port req).1 =
      (vlc_http_mgr_reuse env mgr host port req).1 ∧
    (vlc_http_mgr_reuse env { mgr with creds := some c } host port req).2.2 =
      (vlc_http_mgr_reuse env mgr host port req).2.2 := by
  rcases hc : mgr.conn with _ | cn
  · simp [vlc_http_mgr_reuse, vlc_http_mgr_find, hc]
  · rcases hs : env.streamOpen cn req with _ | s
    · simp [vlc_http_mgr_reuse, vlc_http_mgr_find, vlc_http_mgr_release,
            hc, hs]
    · rcases hm : env.msgGetInitial s with _ | m <;>
        simp [vlc_http_mgr_reuse, vlc_http_mgr_find, vlc_http_mgr_release,
              hc, hs, hm]

/-- Trace facts for `vlc_https_connect`: exactly one dial attempt, no
stream opens, no credential or slot events. -/
theorem https_connect_trace (env : Env) (host : String) (port : Nat)
    (two : Bool) :
    (∀ s, slotRun s (vlc_https_connect env host port two).2.2 = some s) ∧
    dialCount (vlc_https_connect env host port two).2.2 = 1 ∧
    streamOpenCount (vlc_https_connect env host port two).2.2 = 0 ∧
    credsCreateCount (vlc_https_connect env host port two).2.2 = 0 := by
  unfold vlc_https_connect
  split <;> split <;> (dsimp only; split) <;>
    simp [slotRun, dialCount, streamOpenCount, credsCreateCount,
          Ev.isDial, Ev.isStreamOpen, Ev.isCredsCreate, List.filter]

/-- Trace facts for `vlc_https_connect_i11e`: exactly one dial attempt,
no stream opens, no credential or slot events. -/
theorem https_connect_i11e_trace (env : Env) (host : String) (port : Nat)
    (two : Bool) :
    (∀ s, slotRun s (vlc_https_connect_i11e env host port two).2.2 = some s) ∧
    dialCount (vlc_https_connect_i11e env host port two).2.2 = 1 ∧
    streamOpenCount (vlc_https_connect_i11e env host port two).2.2 = 0 ∧
    credsCreateCount (vlc_https_connect_i11e env host port two).2.2 = 0 := by
  unfold vlc_https_connect_i11e
  split
  · simp [slotRun, dialCount, streamOpenCount, credsCreateCount,
          Ev.isDial, Ev.isStreamOpen, Ev.isCredsCreate, List.filter]
  · exact https_connect_trace env host port two

/-- Trace facts for `vlc_http_connect_i11e`: at most one dial attempt
(none when the proxy URL has no host), no stream opens, no credential
or slot events. -/
theorem http_connect_i11e_trace (env : Env) (host : String) (port : Nat) :
    (∀ s, slotRun s (vlc_http_connect_i11e env host port).2.2 = some s) ∧
    dialCount (vlc_http_connect_i11e env host port).2.2 ≤ 1 ∧
    streamOpenCount (vlc_http_connect_i11e env host port).2.2 = 0 ∧
    credsCreateCount (vlc_http_connect_i11e env host port).2.2 = 0 := by
  unfold vlc_http_connect_i11e
  split
  · dsimp only
    split <;>
      simp [slotRun, dialCount, streamOpenCount, credsCreateCount,
            Ev.isDial, Ev.isStreamOpen, Ev.isCredsCreate, List.filter]
  · dsimp only
    simp [slotRun, dialCount, streamOpenCount, credsCreateCount,
          Ev.isDial, Ev.isStreamOpen, Ev.isCredsCreate, List.filter]

/-- Branch elimination for `vlc_https_request_tail`: the call either
returns the first reuse pass's successful result, or the first reuse
pass failed and the dial failed, or the dial succeeded and the
constructor failed (transport closed), or the constructor succeeded
and the result is the second reuse pass on the installed connection. -/
theorem https_tail_elim (env : Env) (mgr0 : Mgr) (host : String)
    (port req : Nat) :
    (∃ m, (vlc_http_mgr_reuse env mgr0 host port req).1 = some m ∧
       vlc_https_request_tail env mgr0 host port req =
         vlc_http_mgr_reuse env mgr0 host port req) ∨
    (∃ mgr1 ev1,
       vlc_http_mgr_reuse env mgr0 host port req = (none, mgr1, ev1) ∧
      ((∃ b evd, vlc_https_connect_i11e env host port true = (none, b, evd) ∧
          vlc_https_request_tail env mgr0 host port req =
            (none, mgr1, ev1 ++ evd)) ∨
       (∃ tls http2 evd,
          vlc_https_connect_i11e env host port true = (some tls, http2, evd) ∧
          ∃ evc, evc = (if http2 then [Ev.connCreateH2 tls]
                        else [Ev.connCreateH1 tls false]) ∧
           (((if http2 then env.h2Create tls else env.h1Create tls false) =
                none ∧
               vlc_https_request_tail env mgr0 host port req =
                 (none, mgr1, ev1 ++ evd ++ evc ++ [Ev.tlsClose tls])) ∨
            (∃ conn,
               (if http2 then env.h2Create tls
                else env.h1Create tls false) = some conn ∧
               vlc_https_request_tail env mgr0 host port req =
                 ((vlc_http_mgr_reuse env { mgr1 with conn := some conn }
                     host port req).1,
                  (vlc_http_mgr_reuse env { mgr1 with conn := some conn }
                     host port req).2.1,
                  ev1 ++ evd ++ evc ++ Ev.install conn ::
                    (vlc_http_mgr_reuse env { mgr1 with conn := some conn }
                       host port req).2.2)))))) := by
  unfold vlc_https_request_tail
  split
  next m mgr1 ev1 hre =>
    exact Or.inl ⟨m, by rw [hre], by rw [hre]⟩
  next mgr1 ev1 hre =>
    refine Or.inr ⟨mgr1, ev1, hre, ?_⟩
    split
    next b evd hd => exact Or.inl ⟨b, evd, hd, rfl⟩
    next tls http2 evd hd =>
      refine Or.inr ⟨tls, http2, evd, hd, ?_⟩
      cases http2 <;> simp only [if_false, if_true, Bool.false_eq_true,
        ite_true, ite_false, Bool.true_eq_false] <;>
        refine ⟨_, rfl, ?_⟩
      · split
        next evc hc =>
          rw [Prod.mk.injEq] at hc
          exact Or.inl ⟨hc.1, by rw [← hc.2]⟩
        next conn evc hc =>
          rw [Prod.mk.injEq] at hc
          exact Or.inr ⟨conn, hc.1, by rw [← hc.2]⟩
      · split
        next evc hc =>
          rw [Prod.mk.injEq] at hc
          exact Or.inl ⟨hc.1, by rw [← hc.2]⟩
        next conn evc hc =>
          rw [Prod.mk.injEq] at hc
          exact Or.inr ⟨conn, hc.1, by rw [← hc.2]⟩

/-- Branch elimination for `vlc_http_request_tail`, mirroring
`https_tail_elim` with the plaintext dial and the `use_h2c`-driven
constructor choice. -/
theorem http_tail_elim (env : Env) (mgr0 : Mgr) (host : String)
    (port req : Nat) :
    (∃ m, (vlc_http_mgr_reuse env mgr0 host port req).1 = some m ∧
       vlc_http_request_tail env mgr0 host port req =
         vlc_http_mgr_reuse env mgr0 host port req) ∨
    (∃ mgr1 ev1,
       vlc_http_mgr_reuse env mgr0 host port req = (none, mgr1, ev1) ∧
      ((∃ b evd, vlc_http_connect_i11e env host port = (none, b, evd) ∧
          vlc_http_request_tail env mgr0 host port req =
            (none, mgr1, ev1 ++ evd)) ∨
       (∃ tls proxy evd,
          vlc_http_connect_i11e env host port = (some tls, proxy, evd) ∧
          ∃ evc, evc = (if mgr1.use_h2c then [Ev.connCreateH2 tls]
                        else [Ev.connCreateH1 tls proxy]) ∧
           (((if mgr1.use_h2c then env.h2Create tls
              else env.h1Create tls proxy) = none ∧
               vlc_http_request_tail env mgr0 host port req =
                 (none, mgr1, ev1 ++ evd ++ evc ++ [Ev.tlsClose tls])) ∨
            (∃ conn,
               (if mgr1.use_h2c then env.h2Create tls
                else env.h1Create tls proxy) = some conn ∧
               vlc_http_request_tail env mgr0 host port req =
                 ((vlc_http_mgr_reuse env { mgr1 with conn := some conn }
                     host port req).1,
                  (vlc_http_mgr_reuse env { mgr1 with conn := some conn }
                     host port req).2.1,
                  ev1 ++ evd ++ evc ++ Ev.install conn ::
                    (vlc_http_mgr_reuse env { mgr1 with conn := some conn }
                       host port req).2.2)))))) := by
  unfold vlc_http_request_tail
  split
  next m mgr1 ev1 hre =>
    exact Or.inl ⟨m, by rw [hre], by rw [hre]⟩
  next mgr1 ev1 hre =>
    refine Or.inr ⟨mgr1, ev1, hre, ?_⟩
    split
    next b evd hd => exact Or.inl ⟨b, evd, hd, rfl⟩
    next tls proxy evd hd =>
      refine Or.inr ⟨tls, proxy, evd, hd, ?_⟩
      cases hh : mgr1.use_h2c <;> simp only [hh, if_false, if_true,
        Bool.false_eq_true, ite_true, ite_false, Bool.true_eq_false] <;>
        refine ⟨_, rfl, ?_⟩
      · split
        next evc hc =>
          rw [Prod.mk.injEq] at hc
          exact Or.inl ⟨hc.1, by rw [← hc.2]⟩
        next conn evc hc =>
          rw [Prod.mk.injEq] at hc
          exact Or.inr ⟨conn, hc.1, by rw [← hc.2]⟩
      · split
        next evc hc =>
          rw [Prod.mk.injEq] at hc
          exact Or.inl ⟨hc.1, by rw [← hc.2]⟩
        next conn evc hc =>
          rw [Prod.mk.injEq] at hc
          exact Or.inr ⟨conn, hc.1, by rw [← hc.2]⟩

theorem dialCount_append (a b : List Ev) :
    dialCount (a ++ b) = dialCount a + dialCount b := by
  simp [dialCount, List.filter_append]

theorem streamOpenCount_append (a b : List Ev) :
    streamOpenCount (a ++ b) = streamOpenCount a + streamOpenCount b := by
  simp [streamOpenCount, List.filter_append]

theorem credsCreateCount_append (a b : List Ev) :
    credsCreateCount (a ++ b) = credsCreateCount a + credsCreateCount b := by
  simp [credsCreateCount, List.filter_append]

/-- Slot replay across `vlc_https_request_tail`: every release finds
the matching cached connection, every install finds an empty slot, and
the replayed slot matches the returned manager. -/
theorem https_tail_slotRun (env : Env) (mgr0 : Mgr) (host : String)
    (port req : Nat) :
    slotRun mgr0.conn (vlc_https_request_tail env mgr0 host port req).2.2 =
      some (vlc_https_request_tail env mgr0 host port req).2.1.conn := by
  rcases https_tail_elim env mgr0 host port req with
    ⟨m, _, he⟩ | ⟨mgr1, ev1, hre, hrest⟩
  · rw [he]; exact reuse_slotRun env mgr0 host port req
  · have hsr : slotRun mgr0.conn ev1 = some mgr1.conn := by
      have := reuse_slotRun env mgr0 host port req
      rw [hre] at this; exact this
    have hn : mgr1.conn = none := by
      have := reuse_none_conn env mgr0 host port req (by rw [hre])
      rw [hre] at this; exact this
    rcases hrest with ⟨b, evd, hd, he⟩ |
      ⟨tls, http2, evd, hd, evc, hevc, ⟨_, he⟩ | ⟨conn, hcc, he⟩⟩
    · have hnd : ∀ s, slotRun s evd = some s := by
        have := (https_connect_i11e_trace env host port true).1
        rw [hd] at this; exact this
      rw [he]
      simp [slotRun_append, hsr, hnd]
    · have hnd : ∀ s, slotRun s evd = some s := by
        have := (https_connect_i11e_trace env host port true).1
        rw [hd] at this; exact this
      have hnc : ∀ s, slotRun s evc = some s := by
        subst hevc; cases http2 <;> simp [slotRun]
      rw [he]
      simp [slotRun_append, hsr, hnd, hnc, slotRun]
    · have hnd : ∀ s, slotRun s evd = some s := by
        have := (https_connect_i11e_trace env host port true).1
        rw [hd] at this; exact this
      have hnc : ∀ s, slotRun s evc = some s := by
        subst hevc; cases http2 <;> simp [slotRun]
      have h2 := reuse_slotRun env { mgr1 with conn := some conn }
        host port req
      rw [he]
      simp only [slotRun_append, hsr, hn, hnd, hnc, Option.bind_some,
        Option.some_bind, slotRun, if_pos]
      simpa using h2

/-- Slot replay across `vlc_http_request_tail`. -/
theorem http_tail_slotRun (env : Env) (mgr0 : Mgr) (host : String)
    (port req : Nat) :
    slotRun mgr0.conn (vlc_http_request_tail env mgr0 host port req).2.2 =
      some (vlc_http_request_tail env mgr0 host port req).2.1.conn := by
  rcases http_tail_elim env mgr0 host port req with
    ⟨m, _, he⟩ | ⟨mgr1, ev1, hre, hrest⟩
  · rw [he]; exact reuse_slotRun env mgr0 host port req
  · have hsr : slotRun mgr0.conn ev1 = some mgr1.conn := by
      have := reuse_slotRun env mgr0 host port req
      rw [hre] at this; exact this
    have hn : mgr1.conn = none := by
      have := reuse_none_conn env mgr0 host port req (by rw [hre])
      rw [hre] at this; exact this
    rcases hrest with ⟨b, evd, hd, he⟩ |
      ⟨tls, proxy, evd, hd, evc, hevc, ⟨_, he⟩ | ⟨conn, hcc, he⟩⟩
    · have hnd : ∀ s, slotRun s evd = some s := by
        have := (http_connect_i11e_trace env host port).1
        rw [hd] at this; exact this
      rw [he]
      simp [slotRun_append, hsr, hnd]
    · have hnd : ∀ s, slotRun s evd = some s := by
        have := (http_connect_i11e_trace env host port).1
        rw [hd] at this; exact this
      have hnc : ∀ s, slotRun s evc = some s := by
        subst hevc; cases mgr1.use_h2c <;> simp [slotRun]
      rw [he]
      simp [slotRun_append, hsr, hnd, hnc, slotRun]
    · have hnd : ∀ s, slotRun s evd = some s := by
        have := (http_connect_i11e_trace env host port).1
        rw [hd] at this; exact this
      have hnc : ∀ s, slotRun s evc = some s := by
        subst hevc; cases mgr1.use_h2c <;> simp [slotRun]
      have h2 := reuse_slotRun env { mgr1 with conn := some conn }
        host port req
      rw [he]
      simp only [slotRun_append, hsr, hn, hnd, hnc, Option.bind_some,
        Option.some_bind, slotRun, if_pos]
      simpa using h2

theorem counts_install_cons (c : Nat) (t : List Ev) :
    dialCount (Ev.install c :: t) = dialCount t ∧
    streamOpenCount (Ev.install c :: t) = streamOpenCount t ∧
    credsCreateCount (Ev.install c :: t) = credsCreateCount t := by
  simp [dialCount, streamOpenCount, credsCreateCount,
        Ev.isDial, Ev.isStreamOpen, Ev.isCredsCreate, List.filter]

/-- Trace accounting for `vlc_https_request_tail`: at most one dial,
at most two stream opens, no credential creation. -/
theorem https_tail_counts (env : Env) (mgr0 : Mgr) (host : String)
    (port req : Nat) :
    dialCount (vlc_https_request_tail env mgr0 host port req).2.2 ≤ 1 ∧
    streamOpenCount (vlc_https_request_tail env mgr0 host port req).2.2 ≤ 2 ∧
    credsCreateCount (vlc_https_request_tail env mgr0 host port req).2.2
      = 0 := by
  obtain ⟨ha1, ha2, ha3⟩ := reuse_counts env mgr0 host port req
  rcases https_tail_elim env mgr0 host port req with
    ⟨m, _, he⟩ | ⟨mgr1, ev1, hre, hrest⟩
  · rw [he]; exact ⟨by omega, by omega, by omega⟩
  · have hb1 : dialCount ev1 = 0 := by rw [hre] at ha1; exact ha1
    have hb2 : streamOpenCount ev1 ≤ 1 := by rw [hre] at ha2; exact ha2
    have hb3 : credsCreateCount ev1 = 0 := by rw [hre] at ha3; exact ha3
    obtain ⟨_, hc1, hc2, hc3⟩ := https_connect_i11e_trace env host port true
    rcases hrest with ⟨b, evd, hd, he⟩ |
      ⟨tls, http2, evd, hd, evc, hevc, ⟨_, he⟩ | ⟨conn, hcc, he⟩⟩
    · have hd1 : dialCount evd = 1 := by rw [hd] at hc1; exact hc1
      have hd2 : streamOpenCount evd = 0 := by rw [hd] at hc2; exact hc2
      have hd3 : credsCreateCount evd = 0 := by rw [hd] at hc3; exact hc3
      rw [he]
      refine ⟨?_, ?_, ?_⟩
      · show dialCount (ev1 ++ evd) ≤ 1
        rw [dialCount_append]; omega
      · show streamOpenCount (ev1 ++ evd) ≤ 2
        rw [streamOpenCount_append]; omega
      · show credsCreateCount (ev1 ++ evd) = 0
        rw [credsCreateCount_append]; omega
    · have hd1 : dialCount evd = 1 := by rw [hd] at hc1; exact hc1
      have hd2 : streamOpenCount evd = 0 := by rw [hd] at hc2; exact hc2
      have hd3 : credsCreateCount evd = 0 := by rw [hd] at hc3; exact hc3
      have he1 : dialCount evc = 0 ∧ streamOpenCount evc = 0 ∧
          credsCreateCount evc = 0 := by
        subst hevc
        cases http2 <;>
          simp [dialCount, streamOpenCount, credsCreateCount,
                Ev.isDial, Ev.isStreamOpen, Ev.isCredsCreate, List.filter]
      have ht1 : dialCount [Ev.tlsClose tls] = 0 ∧
          streamOpenCount [Ev.tlsClose tls] = 0 ∧
          credsCreateCount [Ev.tlsClose tls] = 0 := by
        simp [dialCount, streamOpenCount, credsCreateCount,
              Ev.isDial, Ev.isStreamOpen, Ev.isCredsCreate, List.filter]
      rw [he]
      refine ⟨?_, ?_, ?_⟩
      · show dialCount (ev1 ++ evd ++ evc ++ [Ev.tlsClose tls]) ≤ 1
        simp only [dialCount_append]; omega
      · show streamOpenCount (ev1 ++ evd ++ evc ++ [Ev.tlsClose tls]) ≤ 2
        simp only [streamOpenCount_append]; omega
      · show credsCreateCount (ev1 ++ evd ++ evc ++ [Ev.tlsClose tls]) = 0
        simp only [credsCreateCount_append]; omega
    · have hd1 : dialCount evd = 1 := by rw [hd] at hc1; exact hc1
      have hd2 : streamOpenCount evd = 0 := by rw [hd] at hc2; exact hc2
      have hd3 : credsCreateCount evd = 0 := by rw [hd] at hc3; exact hc3
      have he1 : dialCount evc = 0 ∧ streamOpenCount evc = 0 ∧
          credsCreateCount evc = 0 := by
        subst hevc
        cases http2 <;>
          simp [dialCount, streamOpenCount, credsCreateCount,
                Ev.isDial, Ev.isStreamOpen, Ev.isCredsCreate, List.filter]
      obtain ⟨hg1, hg2, hg3⟩ := reuse_counts env
        { mgr1 with conn := some conn } host port req
      obtain ⟨hi1, hi2, hi3⟩ := counts_install_cons conn
        (vlc_http_mgr_reuse env { mgr1 with conn := some conn }
          host port req).2.2
      rw [he]
      refine ⟨?_, ?_, ?_⟩
      · show dialCount (ev1 ++ evd ++ evc ++ Ev.install conn ::
            (vlc_http_mgr_reuse env { mgr1 with conn := some conn }
              host port req).2.2) ≤ 1
        simp only [dialCount_append, hi1]; omega
      · show streamOpenCount (ev1 ++ evd ++ evc ++ Ev.install conn ::
            (vlc_http_mgr_reuse env { mgr1 with conn := some conn }
              host port req).2.2) ≤ 2
        simp only [streamOpenCount_append, hi2]; omega
      · show credsCreateCount (ev1 ++ evd ++ evc ++ Ev.install conn ::
            (vlc_http_mgr_reuse env { mgr1 with conn := some conn }
              host port req).2.2) = 0
        simp only [credsCreateCount_append, hi3]; omega

/-- Trace accounting for `vlc_http_request_tail`. -/
theorem http_tail_counts (env : Env) (mgr0 : Mgr) (host : String)
    (port req : Nat) :
    dialCount (vlc_http_request_tail env mgr0 host port req).2.2 ≤ 1 ∧
    streamOpenCount (vlc_http_request_tail env mgr0 host port req).2.2 ≤ 2 ∧
    credsCreateCount (vlc_http_request_tail env mgr0 host port req).2.2
      = 0 := by
  obtain ⟨ha1, ha2, ha3⟩ := reuse_counts env mgr0 host port req
  rcases http_tail_elim env mgr0 host port req with
    ⟨m, _, he⟩ | ⟨mgr1, ev1, hre, hrest⟩
  · rw [he]; exact ⟨by omega, by omega, by omega⟩
  · have hb1 : dialCount ev1 = 0 := by rw [hre] at ha1; exact ha1
    have hb2 : streamOpenCount ev1 ≤ 1 := by rw [hre] at ha2; exact ha2
    have hb3 : credsCreateCount ev1 = 0 := by rw [hre] at ha3; exact ha3
    obtain ⟨_, hc1, hc2, hc3⟩ := http_connect_i11e_trace env host port
    rcases hrest with ⟨b, evd, hd, he⟩ |
      ⟨tls, proxy, evd, hd, evc, hevc, ⟨_, he⟩ | ⟨conn, hcc, he⟩⟩
    · have hd1 : dialCount evd ≤ 1 := by rw [hd] at hc1; exact hc1
      have hd2 : streamOpenCount evd = 0 := by rw [hd] at hc2; exact hc2
      have hd3 : credsCreateCount evd = 0 := by rw [hd] at hc3; exact hc3
      rw [he]
      refine ⟨?_, ?_, ?_⟩
      · show dialCount (ev1 ++ evd) ≤ 1
        rw [dialCount_append]; omega
      · show streamOpenCount (ev1 ++ evd) ≤ 2
        rw [streamOpenCount_append]; omega
      · show credsCreateCount (ev1 ++ evd) = 0
        rw [credsCreateCount_append]; omega
    · have hd1 : dialCount evd ≤ 1 := by rw [hd] at hc1; exact hc1
      have hd2 : streamOpenCount evd = 0 := by rw [hd] at hc2; exact hc2
      have hd3 : credsCreateCount evd = 0 := by rw [hd] at hc3; exact hc3
      have he1 : dialCount evc = 0 ∧ streamOpenCount evc = 0 ∧
          credsCreateCount evc = 0 := by
        subst hevc
        cases mgr1.use_h2c <;>
          simp [dialCount, streamOpenCount, credsCreateCount,
                Ev.isDial, Ev.isStreamOpen, Ev.isCredsCreate, List.filter]
      have ht1 : dialCount [Ev.tlsClose tls] = 0 ∧
          streamOpenCount [Ev.tlsClose tls] = 0 ∧
          credsCreateCount [Ev.tlsClose tls] = 0 := by
        simp [dialCount, streamOpenCount, credsCreateCount,
              Ev.isDial, Ev.isStreamOpen, Ev.isCredsCreate, List.filter]
      rw [he]
      refine ⟨?_, ?_, ?_⟩
      · show dialCount (ev1 ++ evd ++ evc ++ [Ev.tlsClose tls]) ≤ 1
        simp only [dialCount_append]; omega
      · show streamOpenCount (ev1 ++ evd ++ evc ++ [Ev.tlsClose tls]) ≤ 2
        simp only [streamOpenCount_append]; omega
      · show credsCreateCount (ev1 ++ evd ++ evc ++ [Ev.tlsClose tls]) = 0
        simp only [credsCreateCount_append]; omega
    · have hd1 : dialCount evd ≤ 1 := by rw [hd] at hc1; exact hc1
      have hd2 : streamOpenCount evd = 0 := by rw [hd] at hc2; exact hc2
      have hd3 : credsCreateCount evd = 0 := by rw [hd] at hc3; exact hc3
      have he1 : dialCount evc = 0 ∧ streamOpenCount evc = 0 ∧
          credsCreateCount evc = 0 := by
        subst hevc
        cases mgr1.use_h2c <;>
          simp [dialCount, streamOpenCount, credsCreateCount,
                Ev.isDial, Ev.isStreamOpen, Ev.isCredsCreate, List.filter]
      obtain ⟨hg1, hg2, hg3⟩ := reuse_counts env
        { mgr1 with conn := some conn } host port req
      obtain ⟨hi1, hi2, hi3⟩ := counts_install_cons conn
        (vlc_http_mgr_reuse env { mgr1 with conn := some conn }
          host port req).2.2
      rw [he]
      refine ⟨?_, ?_, ?_⟩
      · show dialCount (ev1 ++ evd ++ evc ++ Ev.install conn ::
            (vlc_http_mgr_reuse env { mgr1 with conn := some conn }
              host port req).2.2) ≤ 1
        simp only [dialCount_append, hi1]; omega
      · show streamOpenCount (ev1 ++ evd ++ evc ++ Ev.install conn ::
            (vlc_http_mgr_reuse env { mgr1 with conn := some conn }
              host port req).2.2) ≤ 2
        simp only [streamOpenCount_append, hi2]; omega
      · show credsCreateCount (ev1 ++ evd ++ evc ++ Ev.install conn ::
            (vlc_http_mgr_reuse env { mgr1 with conn := some conn }
              host port req).2.2) = 0
        simp only [credsCreateCount_append, hi3]; omega

/-- A failing `vlc_https_request_tail` leaves the slot empty. -/
theorem https_tail_none_conn (env : Env) (mgr0 : Mgr) (host : String)
    (port req : Nat)
    (h : (vlc_https_request_tail env mgr0 host port req).1 = none) :
    (vlc_https_request_tail env mgr0 host port req).2.1.conn = none := by
  rcases https_tail_elim env mgr0 host port req with
    ⟨m, hm, he⟩ | ⟨mgr1, ev1, hre, hrest⟩
  · rw [he] at h; rw [hm] at h; exact absurd h (by simp)
  · have hn : mgr1.conn = none := by
      have := reuse_none_conn env mgr0 host port req (by rw [hre])
      rw [hre] at this; exact this
    rcases hrest with ⟨b, evd, hd, he⟩ |
      ⟨tls, http2, evd, hd, evc, hevc, ⟨_, he⟩ | ⟨conn, hcc, he⟩⟩ <;>
      rw [he] at h ⊢
    · exact hn
    · exact hn
    · exact reuse_none_conn env { mgr1 with conn := some conn }
        host port req h

/-- A failing `vlc_http_request_tail` leaves the slot empty. -/
theorem http_tail_none_conn (env : Env) (mgr0 : Mgr) (host : String)
    (port req : Nat)
    (h : (vlc_http_request_tail env mgr0 host port req).1 = none) :
    (vlc_http_request_tail env mgr0 host port req).2.1.conn = none := by
  rcases http_tail_elim env mgr0 host port req with
    ⟨m, hm, he⟩ | ⟨mgr1, ev1, hre, hrest⟩
  · rw [he] at h; rw [hm] at h; exact absurd h (by simp)
  · have hn : mgr1.conn = none := by
      have := reuse_none_conn env mgr0 host port req (by rw [hre])
      rw [hre] at this; exact this
    rcases hrest with ⟨b, evd, hd, he⟩ |
      ⟨tls, proxy, evd, hd, evc, hevc, ⟨_, he⟩ | ⟨conn, hcc, he⟩⟩ <;>
      rw [he] at h ⊢
    · exact hn
    · exact hn
    · exact reuse_none_conn env { mgr1 with conn := some conn }
        host port req h

/-- `vlc_https_request_tail` preserves every manager field except the
connection slot. -/
theorem https_tail_fields (env : Env) (mgr0 : Mgr) (host : String)
    (port req : Nat) :
    (vlc_https_request_tail env mgr0 host port req).2.1.creds = mgr0.creds ∧
    (vlc_https_request_tail env mgr0 host port req).2.1.obj = mgr0.obj ∧
    (vlc_https_request_tail env mgr0 host port req).2.1.jar = mgr0.jar ∧
    (vlc_https_request_tail env mgr0 host port req).2.1.use_h2c
      = mgr0.use_h2c := by
  have hfix : ∀ mgr1 : Mgr,
      (vlc_http_mgr_reuse env mgr1 host port req).2.1.creds = mgr1.creds ∧
      (vlc_http_mgr_reuse env mgr1 host port req).2.1.obj = mgr1.obj ∧
      (vlc_http_mgr_reuse env mgr1 host port req).2.1.jar = mgr1.jar ∧
      (vlc_http_mgr_reuse env mgr1 host port req).2.1.use_h2c
        = mgr1.use_h2c := by
    intro mgr1
    rcases reuse_state env mgr1 host port req with h | h <;> rw [h] <;>
      simp
  rcases https_tail_elim env mgr0 host port req with
    ⟨m, hm, he⟩ | ⟨mgr1, ev1, hre, hrest⟩
  · rw [he]; exact hfix mgr0
  · have h1c : mgr1.creds = mgr0.creds := by
      have := (hfix mgr0).1; rw [hre] at this; exact this
    have h1o : mgr1.obj = mgr0.obj := by
      have := (hfix mgr0).2.1; rw [hre] at this; exact this
    have h1j : mgr1.jar = mgr0.jar := by
      have := (hfix mgr0).2.2.1; rw [hre] at this; exact this
    have h1u : mgr1.use_h2c = mgr0.use_h2c := by
      have := (hfix mgr0).2.2.2; rw [hre] at this; exact this
    rcases hrest with ⟨b, evd, hd, he⟩ |
      ⟨tls, http2, evd, hd, evc, hevc, ⟨_, he⟩ | ⟨conn, hcc, he⟩⟩ <;>
      rw [he]
    · exact ⟨h1c, h1o, h1j, h1u⟩
    · exact ⟨h1c, h1o, h1j, h1u⟩
    · have h2 := hfix { mgr1 with conn := some conn }
      exact ⟨h2.1.trans h1c, h2.2.1.trans h1o, h2.2.2.1.trans h1j,
             h2.2.2.2.trans h1u⟩

/-- `vlc_http_request_tail` preserves every manager field except the
connection slot. -/
theorem http_tail_fields (env : Env) (mgr0 : Mgr) (host : String)
    (port req : Nat) :
    (vlc_http_request_tail env mgr0 host port req).2.1.creds = mgr0.creds ∧
    (vlc_http_request_tail env mgr0 host port req).2.1.obj = mgr0.obj ∧
    (vlc_http_request_tail env mgr0 host port req).2.1.jar = mgr0.jar ∧
    (vlc_http_request_tail env mgr0 host port req).2.1.use_h2c
      = mgr0.use_h2c := by
  have hfix : ∀ mgr1 : Mgr,
      (vlc_http_mgr_reuse env mgr1 host port req).2.1.creds = mgr1.creds ∧
      (vlc_http_mgr_reuse env mgr1 host port req).2.1.obj = mgr1.obj ∧
      (vlc_http_mgr_reuse env mgr1 host port req).2.1.jar = mgr1.jar ∧
      (vlc_http_mgr_reuse env mgr1 host port req).2.1.use_h2c
        = mgr1.use_h2c := by
    intro mgr1
    rcases reuse_state env mgr1 host port req with h | h <;> rw [h] <;>
      simp
  rcases http_tail_elim env mgr0 host port req with
    ⟨m, hm, he⟩ | ⟨mgr1, ev1, hre, hrest⟩
  · rw [he]; exact hfix mgr0
  · have h1c : mgr1.creds = mgr0.creds := by
      have := (hfix mgr0).1; rw [hre] at this; exact this
    have h1o : mgr1.obj = mgr0.obj := by
      have := (hfix mgr0).2.1; rw [hre] at this; exact this
    have h1j : mgr1.jar = mgr0.jar := by
      have := (hfix mgr0).2.2.1; rw [hre] at this; exact this
    have h1u : mgr1.use_h2c = mgr0.use_h2c := by
      have := (hfix mgr0).2.2.2; rw [hre] at this; exact this
    rcases hrest with ⟨b, evd, hd, he⟩ |
      ⟨tls, proxy, evd, hd, evc, hevc, ⟨_, he⟩ | ⟨conn, hcc, he⟩⟩ <;>
      rw [he]
    · exact ⟨h1c, h1o, h1j, h1u⟩
    · exact ⟨h1c, h1o, h1j, h1u⟩
    · have h2 := hfix { mgr1 with conn := some conn }
      exact ⟨h2.1.trans h1c, h2.2.1.trans h1o, h2.2.2.1.trans h1j,
             h2.2.2.2.trans h1u⟩

/-- A reuse trace contains no install events. -/
theorem reuse_no_install (env : Env) (mgr : Mgr) (host : String)
    (port req : Nat) (c' : Nat) :
    Ev.install c' ∉ (vlc_http_mgr_reuse env mgr host port req).2.2 := by
  rcases reuse_elim env mgr host port req with ⟨hc, he⟩ |
    ⟨c, hc, ⟨_, he⟩ | ⟨s, hs, ⟨_, he⟩ | ⟨m, hm, he⟩⟩⟩ <;> rw [he] <;> simp

/-- A TLS dial trace contains no install events. -/
theorem https_connect_i11e_no_install (env : Env) (host : String)
    (port : Nat) (two : Bool) (c' : Nat) :
    Ev.install c' ∉ (vlc_https_connect_i11e env host port two).2.2 := by
  unfold vlc_https_connect_i11e
  split
  · simp
  · unfold vlc_https_connect
    split <;> split <;> (dsimp only; split) <;> simp

/-- A plaintext dial trace contains no install events. -/
theorem http_connect_i11e_no_install (env : Env) (host : String)
    (port : Nat) (c' : Nat) :
    Ev.install c' ∉ (vlc_http_connect_i11e env host port).2.2 := by
  unfold vlc_http_connect_i11e
  split
  · dsimp only
    split <;> simp
  · dsimp only
    simp

/-- Branch elimination for the `vlc_https_request` wrapper: either the
scheme-mix check fires, or credential creation fails, or the call
reduces to `vlc_https_request_tail` on a manager with credentials,
prefixed by the credential-creation event when applicable. -/
theorem https_request_elim (env : Env) (mgr : Mgr) (host : String)
    (port req : Nat) :
    (mgr.creds = none ∧ mgr.conn ≠ none ∧
       vlc_https_request env mgr host port req = (none, mgr, [])) ∨
    (mgr.creds = none ∧ mgr.conn = none ∧ env.clientCreate = none ∧
       vlc_https_request env mgr host port req = (none, mgr, [])) ∨
    (∃ mgr0 ev0,
       ((mgr.creds = none ∧ mgr.conn = none ∧
           ∃ c, env.clientCreate = some c ∧
             mgr0 = { mgr with creds := some c } ∧
             ev0 = [Ev.credsCreate]) ∨
        (mgr.creds ≠ none ∧ mgr0 = mgr ∧ ev0 = [])) ∧
       vlc_https_request env mgr host port req =
         ((vlc_https_request_tail env mgr0 host port req).1,
          (vlc_https_request_tail env mgr0 host port req).2.1,
          ev0 ++ (vlc_https_request_tail env mgr0 host port req).2.2)) := by
  unfold vlc_https_request
  split
  next h => exact Or.inl ⟨h.1, h.2, rfl⟩
  next h =>
    split
    next hcr hcc =>
      have hcn : mgr.conn = none := by
        by_contra hne
        exact h ⟨hcr, hne⟩
      exact Or.inr (Or.inl ⟨hcr, hcn, hcc, rfl⟩)
    next c hcr hcc =>
      have hcn : mgr.conn = none := by
        by_contra hne
        exact h ⟨hcr, hne⟩
      exact Or.inr (Or.inr ⟨{ mgr with creds := some c }, [Ev.credsCreate],
        Or.inl ⟨hcr, hcn, c, hcc, rfl, rfl⟩, rfl⟩)
    next c hcr =>
      exact Or.inr (Or.inr ⟨mgr, [],
        Or.inr ⟨by simp [hcr], rfl, rfl⟩, rfl⟩)

/-- Branch elimination for the `vlc_http_request` wrapper. -/
theorem http_request_elim (env : Env) (mgr : Mgr) (host : String)
    (port req : Nat) :
    (mgr.creds ≠ none ∧ mgr.conn ≠ none ∧
       vlc_http_request env mgr host port req = (none, mgr, [])) ∨
    (¬(mgr.creds ≠ none ∧ mgr.conn ≠ none) ∧
       vlc_http_request env mgr host port req =
         vlc_http_request_tail env mgr host port req) := by
  unfold vlc_http_request
  split
  next h => exact Or.inl ⟨h.1, h.2, rfl⟩
  next h => exact Or.inr ⟨h, rfl⟩

/-- Per-call credential facts used for the whole-history bound: at
most one creation per call, no creation and no change when credentials
are already present, and any creation leaves credentials present. -/
theorem request_creds_facts (env : Env) (mgr : Mgr) (https : Bool)
    (host : String) (port req : Nat) :
    credsCreateCount
      (vlc_http_mgr_request env mgr https host port req).2.2 ≤ 1 ∧
    (mgr.creds ≠ none →
       credsCreateCount
         (vlc_http_mgr_request env mgr https host port req).2.2 = 0 ∧
       (vlc_http_mgr_request env mgr https host port req).2.1.creds =
         mgr.creds) ∧
    (credsCreateCount
       (vlc_http_mgr_request env mgr https host port req).2.2 ≠ 0 →
       (vlc_http_mgr_request env mgr https host port req).2.1.creds ≠
         none) := by
  cases https
  · have hz : credsCreateCount
        (vlc_http_request env mgr host port req).2.2 = 0 ∧
        (vlc_http_request env mgr host port req).2.1.creds = mgr.creds := by
      rcases http_request_elim env mgr host port req with
        ⟨_, _, he⟩ | ⟨_, he⟩ <;> rw [he]
      · exact ⟨by simp [credsCreateCount], rfl⟩
      · exact ⟨(http_tail_counts env mgr host port req).2.2,
               (http_tail_fields env mgr host port req).1⟩
    exact ⟨le_trans (le_of_eq hz.1) (by omega),
           fun _ => hz, fun h0 => absurd hz.1 h0⟩
  · show credsCreateCount (vlc_https_request env mgr host port req).2.2 ≤ 1 ∧
      (mgr.creds ≠ none →
         credsCreateCount
           (vlc_https_request env mgr host port req).2.2 = 0 ∧
         (vlc_https_request env mgr host port req).2.1.creds = mgr.creds) ∧
      (credsCreateCount
         (vlc_https_request env mgr host port req).2.2 ≠ 0 →
         (vlc_https_request env mgr host port req).2.1.creds ≠ none)
    rcases https_request_elim env mgr host port req with
      ⟨hcr, _, he⟩ | ⟨hcr, _, _, he⟩ | ⟨mgr0, ev0, hcase, he⟩
    · rw [he]
      refine ⟨by simp [credsCreateCount], fun _ => ⟨by simp [credsCreateCount], rfl⟩,
              fun h0 => absurd (by simp [credsCreateCount]) h0⟩
    · rw [he]
      refine ⟨by simp [credsCreateCount], fun _ => ⟨by simp [credsCreateCount], rfl⟩,
              fun h0 => absurd (by simp [credsCreateCount]) h0⟩
    · have htc := (https_tail_counts env mgr0 host port req).2.2
      have htf := (https_tail_fields env mgr0 host port req).1
      rcases hcase with ⟨hcr, _, c, _, h0, hev0⟩ | ⟨hcr, h0, hev0⟩
      · rw [he]
        have hcount : credsCreateCount
            ([Ev.credsCreate] ++
              (vlc_https_request_tail env mgr0 host port req).2.2) = 1 := by
          rw [credsCreateCount_append, htc]
          simp [credsCreateCount, Ev.isCredsCreate, List.filter]
        have hcreds : (vlc_https_request_tail env mgr0 host port req).2.1.creds
            = some c := by rw [htf, h0]
        rw [hev0]
        refine ⟨le_of_eq hcount, fun hne => absurd hcr hne, fun _ => ?_⟩
        show (vlc_https_request_tail env mgr0 host port req).2.1.creds ≠ none
        rw [hcreds]; simp
      · rw [he, hev0]
        have hcount : credsCreateCount
            ([] ++ (vlc_https_request_tail env mgr0 host port req).2.2)
              = 0 := by rw [List.nil_append]; exact htc
        have hcreds : (vlc_https_request_tail env mgr0 host port req).2.1.creds
            = mgr.creds := by rw [htf, h0]
        exact ⟨le_trans (le_of_eq hcount) (by omega),
               fun _ => ⟨hcount, hcreds⟩, fun h0' => absurd hcount h0'⟩

/-- Whole-history credential-creation bound: over any sequence of
requests against one manager, at most one credential creation occurs,
and none at all once credentials are present. -/
theorem run_credsCreate (env : Env) (mgr : Mgr)
    (l : List (Bool × String × Nat × Nat)) :
    credsCreateCount (vlc_http_mgr_run env mgr l).2 ≤ 1 ∧
    (mgr.creds ≠ none →
       credsCreateCount (vlc_http_mgr_run env mgr l).2 = 0) := by
  induction l generalizing mgr with
  | nil =>
      exact ⟨by simp [vlc_http_mgr_run, credsCreateCount, List.filter],
             fun _ => by simp [vlc_http_mgr_run, credsCreateCount, List.filter]⟩
  | cons hd rest ih =>
      obtain ⟨https, host, port, req⟩ := hd
      obtain ⟨f1, f2, f3⟩ := request_creds_facts env mgr https host port req
      have hu : vlc_http_mgr_run env mgr
          ((https, host, port, req) :: rest) =
          ((vlc_http_mgr_run env
              (vlc_http_mgr_request env mgr https host port req).2.1
              rest).1,
           (vlc_http_mgr_request env mgr https host port req).2.2 ++
             (vlc_http_mgr_run env
               (vlc_http_mgr_request env mgr https host port req).2.1
               rest).2) := rfl
      rw [hu]
      show credsCreateCount
          ((vlc_http_mgr_request env mgr https host port req).2.2 ++
            (vlc_http_mgr_run env
              (vlc_http_mgr_request env mgr https host port req).2.1
              rest).2) ≤ 1 ∧ _
      rw [credsCreateCount_append]
      constructor
      · by_cases h0 : credsCreateCount
            (vlc_http_mgr_request env mgr https host port req).2.2 = 0
        · have := (ih
            (vlc_http_mgr_request env mgr https host port req).2.1).1
          omega
        · have hne := f3 h0
          have := (ih
            (vlc_http_mgr_request env mgr https host port req).2.1).2 hne
          omega
      · intro hne
        obtain ⟨g1, g2⟩ := f2 hne
        have hne' : (vlc_http_mgr_request env mgr
            https host port req).2.1.creds ≠ none := by rw [g2]; exact hne
        have := (ih
          (vlc_http_mgr_request env mgr https host port req).2.1).2 hne'
        omega

/-! ### Concrete oracles and managers for evaluation -/

/-- Oracle where every collaborator succeeds; TLS negotiates `h2`. -/
def envOk : Env :=
  { clientCreate := some 1
    proxyFind := fun _ _ _ => none
    urlParse := fun _ => ⟨none, 0⟩
    httpsConnectProxy := fun _ _ two _ => (none, two)
    tlsOpen := fun _ _ _ => some (10, some "h2")
    tcpOpen := fun _ _ => some 11
    h2Create := fun t => some (t + 100)
    h1Create := fun t _ => some (t + 200)
    streamOpen := fun c _ => some (c + 1000)
    msgGetInitial := fun s => some (s + 2000) }

/-- Oracle where every collaborator fails. -/
def envFail : Env :=
  { clientCreate := none
    proxyFind := fun _ _ _ => none
    urlParse := fun _ => ⟨none, 0⟩
    httpsConnectProxy := fun _ _ two _ => (none, two)
    tlsOpen := fun _ _ _ => none
    tcpOpen := fun _ _ => none
    h2Create := fun _ => none
    h1Create := fun _ _ => none
    streamOpen := fun _ _ => none
    msgGetInitial := fun _ => none }

/-- Oracle where stream open fails (dead connection). -/
def envStreamFail : Env :=
  { envOk with streamOpen := fun _ _ => none }

/-- Oracle where the initial-message fetch fails. -/
def envMsgFail : Env :=
  { envOk with msgGetInitial := fun _ => none }

/-- Freshly created manager (empty slot, no credentials). -/
def mgrEmpty : Mgr :=
  vlc_http_mgr_create 0 none false

/-- Manager holding a plaintext connection (no credentials). -/
def mgrConn3 : Mgr :=
  { obj := 0, creds := none, jar := none, conn := some 3, use_h2c := false }

/-- Manager holding a TLS connection (credentials present). -/
def mgrTls : Mgr :=
  { obj := 0, creds := some 1, jar := none, conn := some 3, use_h2c := false }

/-- Manager with credentials but an empty slot. -/
def mgrCreds : Mgr :=
  { obj := 0, creds := some 1, jar := none, conn := none, use_h2c := false }

/-- Oracle where dialing succeeds but both connection constructors
fail. -/
def envCtorFail : Env :=
  { envOk with h2Create := fun _ => none, h1Create := fun _ _ => none }

/-- Oracle where the server negotiates `http/1.1` instead of `h2`. -/
def envAlpn1 : Env :=
  { envOk with tlsOpen := fun _ _ _ => some (10, some "http/1.1") }

/-- Oracle with a plaintext proxy configured whose URL parses to a
host with no port. -/
def envProxy : Env :=
  { envOk with
      proxyFind := fun _ _ secure => if secure then none else some "p"
      urlParse := fun _ => ⟨some "proxy.test", 0⟩ }

/-! ### Claims -/

/-- C1: `vlc_http_mgr_reuse` behaves exactly as specified: with an
empty slot it returns `none` with no state change and no effects; with
a cached connection it opens a stream, and on stream-open failure or
initial-message failure it releases the connection (clearing the slot)
and returns `none`; when the initial message arrives it returns it and
leaves the slot unchanged. -/
theorem C1_reuse_spec (env : Env) (mgr : Mgr) (host : String)
    (port req : Nat) :
    (mgr.conn = none →
       vlc_http_mgr_reuse env mgr host port req = (none, mgr, [])) ∧
    (∀ c, mgr.conn = some c →
      (env.streamOpen c req = none →
         vlc_http_mgr_reuse env mgr host port req =
           (none, { mgr with conn := none },
            [Ev.streamOpen c, Ev.release c])) ∧
      (∀ s, env.streamOpen c req = some s →
        (env.msgGetInitial s = none →
           vlc_http_mgr_reuse env mgr host port req =
             (none, { mgr with conn := none },
              [Ev.streamOpen c, Ev.release c])) ∧
        (∀ m, env.msgGetInitial s = some m →
           vlc_http_mgr_reuse env mgr host port req =
             (some m, mgr, [Ev.streamOpen c])))) := by
  refine ⟨fun hc => ?_, fun c hc =>
    ⟨fun hs => ?_, fun s hs => ⟨fun hm => ?_, fun m hm => ?_⟩⟩⟩ <;>
    simp [vlc_http_mgr_reuse, vlc_http_mgr_find, vlc_http_mgr_release, *]

/-- Witness for C1: all four cases evaluated on concrete oracles. -/
theorem C1_reuse_spec_witness :
    vlc_http_mgr_reuse envOk mgrEmpty "h" 80 7 = (none, mgrEmpty, []) ∧
    vlc_http_mgr_reuse envStreamFail mgrConn3 "h" 80 7 =
      (none, { mgrConn3 with conn := none },
       [Ev.streamOpen 3, Ev.release 3]) ∧
    vlc_http_mgr_reuse envMsgFail mgrConn3 "h" 80 7 =
      (none, { mgrConn3 with conn := none },
       [Ev.streamOpen 3, Ev.release 3]) ∧
    vlc_http_mgr_reuse envOk mgrConn3 "h" 80 7 =
      (some 3003, mgrConn3, [Ev.streamOpen 3]) :=
  ⟨(C1_reuse_spec envOk mgrEmpty "h" 80 7).1 rfl,
   ((C1_reuse_spec envStreamFail mgrConn3 "h" 80 7).2 3 rfl).1 rfl,
   (((C1_reuse_spec envMsgFail mgrConn3 "h" 80 7).2 3 rfl).2 1003 rfl).1 rfl,
   (((C1_reuse_spec envOk mgrConn3 "h" 80 7).2 3 rfl).2 1003 rfl).2 3003 rfl⟩

/-- C3: scheme mixing is rejected up front: an HTTPS request with no
credentials but an occupied slot, and a plain HTTP request with
credentials present and an occupied slot, both return `none` with an
empty effect trace (no dial, no credential creation) and the manager
entirely unchanged. -/
theorem C3_scheme_mix (env : Env) (mgr : Mgr) (host : String)
    (port req : Nat) :
    (mgr.creds = none → mgr.conn ≠ none →
       vlc_https_request env mgr host port req = (none, mgr, [])) ∧
    (mgr.creds ≠ none → mgr.conn ≠ none →
       vlc_http_request env mgr host port req = (none, mgr, [])) := by
  constructor
  · intro h1 h2
    simp [vlc_https_request, h1, h2]
  · intro h1 h2
    simp [vlc_http_request, h1, h2]

/-- Witness for C3: both scheme-mix rejections on concrete managers. -/
theorem C3_scheme_mix_witness :
    vlc_https_request envOk mgrConn3 "h" 80 7 = (none, mgrConn3, []) ∧
    vlc_http_request envOk mgrTls "h" 80 7 = (none, mgrTls, []) :=
  ⟨(C3_scheme_mix envOk mgrConn3 "h" 80 7).1 rfl (by decide),
   (C3_scheme_mix envOk mgrTls "h" 80 7).2 (by decide) (by decide)⟩

/-- C2: bounded retry: any single `vlc_http_mgr_request` call makes at
most 1 dial attempt and at most 2 stream-open attempts, for every
oracle behaviour and manager state; in particular a stream failure on
the freshly-dialed connection cannot trigger a third attempt. -/
theorem C2_bounded_retry (env : Env) (mgr : Mgr) (https : Bool)
    (host : String) (port req : Nat) :
    dialCount (vlc_http_mgr_request env mgr https host port req).2.2 ≤ 1 ∧
    streamOpenCount
      (vlc_http_mgr_request env mgr https host port req).2.2 ≤ 2 := by
  cases https
  · show dialCount (vlc_http_request env mgr host port req).2.2 ≤ 1 ∧
      streamOpenCount (vlc_http_request env mgr host port req).2.2 ≤ 2
    rcases http_request_elim env mgr host port req with
      ⟨_, _, he⟩ | ⟨_, he⟩ <;> rw [he]
    · simp [dialCount, streamOpenCount]
    · exact ⟨(http_tail_counts env mgr host port req).1,
             (http_tail_counts env mgr host port req).2.1⟩
  · show dialCount (vlc_https_request env mgr host port req).2.2 ≤ 1 ∧
      streamOpenCount (vlc_https_request env mgr host port req).2.2 ≤ 2
    rcases https_request_elim env mgr host port req with
      ⟨_, _, he⟩ | ⟨_, _, _, he⟩ | ⟨mgr0, ev0, hcase, he⟩ <;> rw [he]
    · simp [dialCount, streamOpenCount]
    · simp [dialCount, streamOpenCount]
    · have hev0 : dialCount ev0 = 0 ∧ streamOpenCount ev0 = 0 := by
        rcases hcase with ⟨_, _, c, _, _, h0⟩ | ⟨_, _, h0⟩ <;> subst h0 <;>
          simp [dialCount, streamOpenCount, Ev.isDial, Ev.isStreamOpen,
                List.filter]
      obtain ⟨ht1, ht2, _⟩ := https_tail_counts env mgr0 host port req
      constructor
      · show dialCount
          (ev0 ++ (vlc_https_request_tail env mgr0 host port req).2.2) ≤ 1
        rw [dialCount_append]; omega
      · show streamOpenCount
          (ev0 ++ (vlc_https_request_tail env mgr0 host port req).2.2) ≤ 2
        rw [streamOpenCount_append]; omega

/-- C5: cache exclusivity: replaying the cache-slot effects of any
single `vlc_http_mgr_request` trace from the initial slot state never
violates the release precondition (the slot holds exactly the released
connection) or the install precondition (the slot is empty), and ends
in the returned manager's slot state — so the manager holds at most
one connection at any point and no connection is overwritten without
being released.  Destroy likewise releases the cached connection
exactly when one is present. -/
theorem C5_cache_exclusive (env : Env) (mgr : Mgr) (https : Bool)
    (host : String) (port req : Nat) :
    slotRun mgr.conn (vlc_http_mgr_request env mgr https host port req).2.2 =
      some (vlc_http_mgr_request env mgr https host port req).2.1.conn ∧
    slotRun mgr.conn (vlc_http_mgr_destroy mgr) = some none := by
  constructor
  · cases https
    · show slotRun mgr.conn (vlc_http_request env mgr host port req).2.2 =
        some (vlc_http_request env mgr host port req).2.1.conn
      rcases http_request_elim env mgr host port req with
        ⟨_, _, he⟩ | ⟨_, he⟩ <;> rw [he]
      · simp [slotRun]
      · exact http_tail_slotRun env mgr host port req
    · show slotRun mgr.conn (vlc_https_request env mgr host port req).2.2 =
        some (vlc_https_request env mgr host port req).2.1.conn
      rcases https_request_elim env mgr host port req with
        ⟨_, _, he⟩ | ⟨_, _, _, he⟩ | ⟨mgr0, ev0, hcase, he⟩ <;> rw [he]
      · simp [slotRun]
      · simp [slotRun]
      · have hconn0 : mgr0.conn = mgr.conn := by
          rcases hcase with ⟨_, _, c, _, h0, _⟩ | ⟨_, h0, _⟩ <;> subst h0 <;>
            simp
        have hev0 : slotRun mgr.conn ev0 = some mgr.conn := by
          rcases hcase with ⟨_, _, c, _, _, h0⟩ | ⟨_, _, h0⟩ <;> subst h0 <;>
            simp [slotRun]
        have ht := https_tail_slotRun env mgr0 host port req
        rw [hconn0] at ht
        show slotRun mgr.conn
            (ev0 ++ (vlc_https_request_tail env mgr0 host port req).2.2) =
          some (vlc_https_request_tail env mgr0 host port req).2.1.conn
        rw [slotRun_append, hev0, Option.some_bind]
        exact ht
  · unfold vlc_http_mgr_destroy
    rcases mgr.conn with _ | c <;> rcases mgr.creds with _ | cr <;>
      simp [slotRun]

/-- C10: a failing `vlc_http_mgr_request` never leaves a dead
connection cached: when the result is `none`, the slot afterwards is
either exactly what it was before the call (failures before install)
or empty (the cached or freshly-installed connection was released
after its stream failed). -/
theorem C10_no_dead_conn (env : Env) (mgr : Mgr) (https : Bool)
    (host : String) (port req : Nat)
    (h : (vlc_http_mgr_request env mgr https host port req).1 = none) :
    (vlc_http_mgr_request env mgr https host port req).2.1.conn =
      mgr.conn ∨
    (vlc_http_mgr_request env mgr https host port req).2.1.conn =
      none := by
  cases https
  · replace h : (vlc_http_request env mgr host port req).1 = none := h
    show (vlc_http_request env mgr host port req).2.1.conn = mgr.conn ∨
      (vlc_http_request env mgr host port req).2.1.conn = none
    rcases http_request_elim env mgr host port req with
      ⟨_, _, he⟩ | ⟨_, he⟩ <;> rw [he] at h ⊢
    · exact Or.inl rfl
    · exact Or.inr (http_tail_none_conn env mgr host port req h)
  · replace h : (vlc_https_request env mgr host port req).1 = none := h
    show (vlc_https_request env mgr host port req).2.1.conn = mgr.conn ∨
      (vlc_https_request env mgr host port req).2.1.conn = none
    rcases https_request_elim env mgr host port req with
      ⟨_, _, he⟩ | ⟨_, _, _, he⟩ | ⟨mgr0, ev0, hcase, he⟩ <;> rw [he] at h ⊢
    · exact Or.inl rfl
    · exact Or.inl rfl
    · exact Or.inr (https_tail_none_conn env mgr0 host port req h)

/-- Witness for C10: a request whose credential creation fails leaves
the slot as it was. -/
theorem C10_no_dead_conn_witness :
    (vlc_http_mgr_request envFail mgrEmpty true "h" 0 7).2.1.conn =
      mgrEmpty.conn ∨
    (vlc_http_mgr_request envFail mgrEmpty true "h" 0 7).2.1.conn =
      none :=
  C10_no_dead_conn envFail mgrEmpty true "h" 0 7 rfl

/-- C6: TLS credentials are created lazily at most once per call and
only when absent, never touched by plaintext requests, preserved once
present, and released exactly once at destroy; when credential
creation fails the HTTPS request returns `none` with the manager
completely unchanged (credentials still absent), so it remains usable
for plaintext requests; over any whole sequence of requests against
one manager, at most one credential creation occurs. -/
theorem C6_creds_lifecycle (env : Env) (mgr : Mgr) (host : String)
    (port req : Nat) (l : List (Bool × String × Nat × Nat)) :
    credsCreateCount (vlc_https_request env mgr host port req).2.2 ≤ 1 ∧
    (∀ c, mgr.creds = some c →
       (vlc_https_request env mgr host port req).2.1.creds = some c ∧
       credsCreateCount (vlc_https_request env mgr host port req).2.2
         = 0) ∧
    (credsCreateCount (vlc_http_request env mgr host port req).2.2 = 0 ∧
       (vlc_http_request env mgr host port req).2.1.creds = mgr.creds) ∧
    credsDeleteCount (vlc_http_mgr_destroy mgr) =
      (if mgr.creds.isSome then 1 else 0) ∧
    (mgr.creds = none → env.clientCreate = none →
       (vlc_https_request env mgr host port req).1 = none ∧
       (vlc_https_request env mgr host port req).2.1 = mgr) ∧
    credsCreateCount (vlc_http_mgr_run env mgr l).2 ≤ 1 := by
  refine ⟨?_, ?_, ⟨?_, ?_⟩, ?_, ?_, (run_credsCreate env mgr l).1⟩
  · rcases https_request_elim env mgr host port req with
      ⟨_, _, he⟩ | ⟨_, _, _, he⟩ | ⟨mgr0, ev0, hcase, he⟩ <;> rw [he]
    · simp [credsCreateCount]
    · simp [credsCreateCount]
    · have hev0 : credsCreateCount ev0 ≤ 1 := by
        rcases hcase with ⟨_, _, c, _, _, h0⟩ | ⟨_, _, h0⟩ <;> subst h0 <;>
          simp [credsCreateCount, Ev.isCredsCreate, List.filter]
      have ht := (https_tail_counts env mgr0 host port req).2.2
      show credsCreateCount
        (ev0 ++ (vlc_https_request_tail env mgr0 host port req).2.2) ≤ 1
      rw [credsCreateCount_append]; omega
  · intro c hc
    rcases https_request_elim env mgr host port req with
      ⟨hcr, _, _⟩ | ⟨hcr, _, _, _⟩ | ⟨mgr0, ev0, hcase, he⟩
    · rw [hc] at hcr; exact absurd hcr (by simp)
    · rw [hc] at hcr; exact absurd hcr (by simp)
    · rcases hcase with ⟨hcr, _, _⟩ | ⟨_, h0, hev0⟩
      · rw [hc] at hcr; exact absurd hcr (by simp)
      · subst h0; subst hev0
        rw [he]
        refine ⟨?_, ?_⟩
        · show (vlc_https_request_tail env mgr0 host port req).2.1.creds
            = some c
          rw [(https_tail_fields env mgr0 host port req).1, hc]
        · show credsCreateCount
            ([] ++ (vlc_https_request_tail env mgr0 host port req).2.2) = 0
          rw [List.nil_append]
          exact (https_tail_counts env mgr0 host port req).2.2
  · rcases http_request_elim env mgr host port req with
      ⟨_, _, he⟩ | ⟨_, he⟩ <;> rw [he]
    · simp [credsCreateCount]
    · exact (http_tail_counts env mgr host port req).2.2
  · rcases http_request_elim env mgr host port req with
      ⟨_, _, he⟩ | ⟨_, he⟩ <;> rw [he]
    exact (http_tail_fields env mgr host port req).1
  · unfold vlc_http_mgr_destroy
    rcases mgr.conn with _ | c <;> rcases mgr.creds with _ | cr <;>
      simp [credsDeleteCount, Ev.isCredsDelete, List.filter]
  · intro hcr hcc
    rcases https_request_elim env mgr host port req with
      ⟨_, _, he⟩ | ⟨_, _, _, he⟩ | ⟨mgr0, ev0, hcase, he⟩
    · rw [he]; exact ⟨rfl, rfl⟩
    · rw [he]; exact ⟨rfl, rfl⟩
    · rcases hcase with ⟨_, _, c, hc, _, _⟩ | ⟨hne, _, _⟩
      · rw [hcc] at hc; exact absurd hc (by simp)
      · exact absurd hcr hne

/-- Witness for C6: credentials preserved on a manager that has them,
and a failing credential creation leaves the manager unchanged. -/
theorem C6_creds_lifecycle_witness :
    ((vlc_https_request envOk mgrTls "h" 0 7).2.1.creds = some 1 ∧
     credsCreateCount (vlc_https_request envOk mgrTls "h" 0 7).2.2 = 0) ∧
    ((vlc_https_request envFail mgrEmpty "h" 0 7).1 = none ∧
     (vlc_https_request envFail mgrEmpty "h" 0 7).2.1 = mgrEmpty) :=
  ⟨(C6_creds_lifecycle envOk mgrTls "h" 0 7 []).2.1 1 rfl,
   (C6_creds_lifecycle envFail mgrEmpty "h" 0 7 []).2.2.2.2.1 rfl rfl⟩

/-- C7: when a transport was successfully dialed but the connection
constructor returns `NULL`, the transport is closed, the request
returns `none`, and nothing is installed in the cache (no install
event, slot left empty), on both the HTTPS and the plain HTTP path.
The hypotheses are exactly what reaching the dial entails — no scheme
mix, credentials present or creatable, first reuse pass failed — so
every execution that dials is covered, including first HTTPS requests
that lazily create credentials in the same call. -/
theorem C7_ctor_failure (env : Env) (mgr : Mgr) (host : String)
    (port req : Nat) :
    (∀ tls http2 evd, ¬(mgr.creds = none ∧ mgr.conn ≠ none) →
       (mgr.creds = none → env.clientCreate ≠ none) →
       (vlc_http_mgr_reuse env mgr host port req).1 = none →
       vlc_https_connect_i11e env host port true = (some tls, http2, evd) →
       (if http2 then env.h2Create tls else env.h1Create tls false) =
         none →
       (vlc_https_request env mgr host port req).1 = none ∧
       (vlc_https_request env mgr host port req).2.1.conn = none ∧
       Ev.tlsClose tls ∈ (vlc_https_request env mgr host port req).2.2 ∧
       ∀ c', Ev.install c' ∉
         (vlc_https_request env mgr host port req).2.2) ∧
    (∀ tls proxied evd, ¬(mgr.creds ≠ none ∧ mgr.conn ≠ none) →
       (vlc_http_mgr_reuse env mgr host port req).1 = none →
       vlc_http_connect_i11e env host port = (some tls, proxied, evd) →
       (if mgr.use_h2c then env.h2Create tls
        else env.h1Create tls proxied) = none →
       (vlc_http_request env mgr host port req).1 = none ∧
       (vlc_http_request env mgr host port req).2.1.conn = none ∧
       Ev.tlsClose tls ∈ (vlc_http_request env mgr host port req).2.2 ∧
       ∀ c', Ev.install c' ∉
         (vlc_http_request env mgr host port req).2.2) := by
  constructor
  · intro tls http2 evd hnomix hcl hre hd hctor
    rcases https_request_elim env mgr host port req with
      ⟨h1, h2, _⟩ | ⟨h1, _, h3, _⟩ | ⟨mgr0, ev0, hcase, he⟩
    · exact absurd ⟨h1, h2⟩ hnomix
    · exact absurd h3 (hcl h1)
    · have hre0 : (vlc_http_mgr_reuse env mgr0 host port req).1 = none := by
        rcases hcase with ⟨_, _, c, _, h0, _⟩ | ⟨_, h0, _⟩
        · rw [h0, (reuse_creds_irrel env mgr c host port req).1]
          exact hre
        · rw [h0]; exact hre
      have hev0i : ∀ c', Ev.install c' ∉ ev0 := by
        intro c'
        rcases hcase with ⟨_, _, c, _, _, h0⟩ | ⟨_, _, h0⟩ <;> subst h0 <;>
          simp
      rcases https_tail_elim env mgr0 host port req with
        ⟨m, hm, _⟩ | ⟨mgr1, ev1, hre2, hrest⟩
      · rw [hre0] at hm; exact absurd hm (by simp)
      · have hm1 : mgr1.conn = none := by
          have := reuse_none_conn env mgr0 host port req hre0
          rw [hre2] at this; exact this
        have h1i : ∀ c', Ev.install c' ∉ ev1 := by
          intro c'
          have := reuse_no_install env mgr0 host port req c'
          rw [hre2] at this; exact this
        rcases hrest with ⟨b, evd', hd', _⟩ |
          ⟨tls', http2', evd', hd', evc, hevc, ⟨hcnone, het⟩ |
            ⟨conn, hcc2, het⟩⟩
        · rw [hd] at hd'; exact absurd hd' (by simp)
        · rw [hd] at hd'
          obtain ⟨htls, hh2, hevd⟩ : tls = tls' ∧ http2 = http2' ∧
              evd = evd' := by simpa [Prod.ext_iff] using hd'
          subst htls; subst hh2; subst hevd
          have h2i : ∀ c', Ev.install c' ∉ evd := by
            intro c'
            have := https_connect_i11e_no_install env host port true c'
            rw [hd] at this; exact this
          have h3i : ∀ c', Ev.install c' ∉ evc := by
            intro c'
            subst hevc; cases http2 <;> simp
          rw [he, het]
          refine ⟨rfl, hm1, by simp, ?_⟩
          intro c' hmem
          simp only [List.mem_append, List.mem_singleton] at hmem
          rcases hmem with hx | ((hx | hx) | hx) | hx
          · exact hev0i c' hx
          · exact h1i c' hx
          · exact h2i c' hx
          · exact h3i c' hx
          · simp at hx
        · rw [hd] at hd'
          obtain ⟨htls, hh2, hevd⟩ : tls = tls' ∧ http2 = http2' ∧
              evd = evd' := by simpa [Prod.ext_iff] using hd'
          subst htls; subst hh2; subst hevd
          rw [hctor] at hcc2
          exact absurd hcc2 (by simp)
  · intro tls proxied evd hmix hre hd hctor
    have hwrap : vlc_http_request env mgr host port req =
        vlc_http_request_tail env mgr host port req := by
      rcases http_request_elim env mgr host port req with
        ⟨h1, h2, _⟩ | ⟨_, he⟩
      · exact absurd ⟨h1, h2⟩ hmix
      · exact he
    rcases http_tail_elim env mgr host port req with
      ⟨m, hm, _⟩ | ⟨mgr1, ev1, hre2, hrest⟩
    · rw [hre] at hm; exact absurd hm (by simp)
    · have hm1 : mgr1.conn = none := by
        have := reuse_none_conn env mgr host port req hre
        rw [hre2] at this; exact this
      have hu : mgr1.use_h2c = mgr.use_h2c := by
        rcases reuse_state env mgr host port req with h | h <;>
          rw [hre2] at h <;>
          (have h' : mgr1 = _ := h) <;> rw [h']
      have h1i : ∀ c', Ev.install c' ∉ ev1 := by
        intro c'
        have := reuse_no_install env mgr host port req c'
        rw [hre2] at this; exact this
      rcases hrest with ⟨b, evd', hd', _⟩ |
        ⟨tls', proxied', evd', hd', evc, hevc, ⟨hcnone, he⟩ |
          ⟨conn, hcc, he⟩⟩
      · rw [hd] at hd'; exact absurd hd' (by simp)
      · rw [hd] at hd'
        obtain ⟨htls, hpx, hevd⟩ : tls = tls' ∧ proxied = proxied' ∧
            evd = evd' := by simpa [Prod.ext_iff] using hd'
        subst htls; subst hpx; subst hevd
        have h2i : ∀ c', Ev.install c' ∉ evd := by
          intro c'
          have := http_connect_i11e_no_install env host port c'
          rw [hd] at this; exact this
        have h3i : ∀ c', Ev.install c' ∉ evc := by
          intro c'
          subst hevc; cases mgr1.use_h2c <;> simp
        rw [hwrap, he]
        refine ⟨rfl, hm1, by simp, ?_⟩
        intro c' hmem
        simp only [List.mem_append, List.mem_singleton] at hmem
        rcases hmem with ((hx | hx) | hx) | hx
        · exact h1i c' hx
        · exact h2i c' hx
        · exact h3i c' hx
        · simp at hx
      · rw [hd] at hd'
        obtain ⟨htls, hpx, hevd⟩ : tls = tls' ∧ proxied = proxied' ∧
            evd = evd' := by simpa [Prod.ext_iff] using hd'
        subst htls; subst hpx; subst hevd
        rw [hu] at hcc
        rw [hctor] at hcc
        exact absurd hcc (by simp)

/-- Witness for C7: constructor failure after a successful dial on
both paths, evaluated on concrete oracles. -/
theorem C7_ctor_failure_witness :
    ((vlc_https_request envCtorFail mgrEmpty "h" 0 7).1 = none ∧
     (vlc_https_request envCtorFail mgrEmpty "h" 0 7).2.1.conn = none ∧
     Ev.tlsClose 10 ∈ (vlc_https_request envCtorFail mgrEmpty "h" 0 7).2.2 ∧
     Ev.install 110 ∉ (vlc_https_request envCtorFail mgrEmpty "h" 0 7).2.2) ∧
    ((vlc_http_request envCtorFail mgrEmpty "h" 0 7).1 = none ∧
     (vlc_http_request envCtorFail mgrEmpty "h" 0 7).2.1.conn = none ∧
     Ev.tlsClose 11 ∈ (vlc_http_request envCtorFail mgrEmpty "h" 0 7).2.2 ∧
     Ev.install 211 ∉ (vlc_http_request envCtorFail mgrEmpty "h" 0 7).2.2) := by
  obtain ⟨h1, h2, h3, h4⟩ :=
    (C7_ctor_failure envCtorFail mgrEmpty "h" 0 7).1 10 true
      [Ev.dialTls "h" 443 ["h2", "http/1.1"]] (by decide) (by decide) rfl
      (by decide) rfl
  obtain ⟨g1, g2, g3, g4⟩ :=
    (C7_ctor_failure envCtorFail mgrEmpty "h" 0 7).2 11 false
      [Ev.dialTcp "h" 80] (by decide) rfl rfl rfl
  exact ⟨⟨h1, h2, h3, h4 110⟩, ⟨g1, g2, g3, g4 211⟩⟩

/-- C4: the TLS dial offers ALPN `{h2, http/1.1}` in that order when
HTTP/2 is permitted and `{http/1.1}` when not; on handshake success
the HTTP/2 flag becomes exactly whether the negotiated string is
`"h2"`; and on the no-proxy HTTPS request path the connection
constructed afterwards is HTTP/2 exactly when the negotiated ALPN
string is `"h2"`, any other or absent ALPN yielding an HTTP/1.1
connection with the proxied flag false.  The request-path part assumes
only what reaching the dial entails: no scheme mix, and credentials
present or creatable — so first requests that lazily create
credentials in the same call are covered. -/
theorem C4_alpn_version (env : Env) (mgr : Mgr) (host : String)
    (port req : Nat) (two : Bool) (tls : Nat) (alp : Option String) :
    ((vlc_https_connect env host port two).2.2 =
       [Ev.dialTls host (if port = 0 then 443 else port)
          (if two then ["h2", "http/1.1"] else ["http/1.1"])]) ∧
    (env.tlsOpen host (if port = 0 then 443 else port)
        (if two then ["h2", "http/1.1"] else ["http/1.1"]) =
          some (tls, alp) →
       (vlc_https_connect env host port two).1 = some tls ∧
       (vlc_https_connect env host port two).2.1 =
         decide (alp = some "h2")) ∧
    (¬(mgr.creds = none ∧ mgr.conn ≠ none) →
     (mgr.creds = none → env.clientCreate ≠ none) →
     (vlc_http_mgr_reuse env mgr host port req).1 = none →
     env.proxyFind host port true = none →
     env.tlsOpen host (if port = 0 then 443 else port)
       ["h2", "http/1.1"] = some (tls, alp) →
     ((alp = some "h2" →
         Ev.connCreateH2 tls ∈
           (vlc_https_request env mgr host port req).2.2) ∧
      (alp ≠ some "h2" →
         Ev.connCreateH1 tls false ∈
           (vlc_https_request env mgr host port req).2.2))) := by
  refine ⟨?_, ?_, ?_⟩
  · unfold vlc_https_connect
    dsimp only
    split <;> rfl
  · intro h
    unfold vlc_https_connect
    dsimp only
    rw [h]
    exact ⟨rfl, rfl⟩
  · intro hnomix hcl hre hpx htls
    have hd : vlc_https_connect_i11e env host port true =
        (some tls, decide (alp = some "h2"),
         [Ev.dialTls host (if port = 0 then 443 else port)
            ["h2", "http/1.1"]]) := by
      unfold vlc_https_connect_i11e
      rw [hpx]
      unfold vlc_https_connect
      simp [htls]
    rcases https_request_elim env mgr host port req with
      ⟨h1, h2, _⟩ | ⟨h1, _, h3, _⟩ | ⟨mgr0, ev0, hcase, he⟩
    · exact absurd ⟨h1, h2⟩ hnomix
    · exact absurd h3 (hcl h1)
    · have hre0 : (vlc_http_mgr_reuse env mgr0 host port req).1 = none := by
        rcases hcase with ⟨_, _, c, _, h0, _⟩ | ⟨_, h0, _⟩
        · rw [h0, (reuse_creds_irrel env mgr c host port req).1]
          exact hre
        · rw [h0]; exact hre
      rcases https_tail_elim env mgr0 host port req with
        ⟨m, hm, _⟩ | ⟨mgr1, ev1, hre2, hrest⟩
      · rw [hre0] at hm; exact absurd hm (by simp)
      · rcases hrest with ⟨b, evd', hd', _⟩ |
          ⟨tls', http2', evd', hd', evc, hevc, ⟨hcnone, het⟩ |
            ⟨conn, hcc2, het⟩⟩
        · rw [hd] at hd'; exact absurd hd' (by simp)
        · rw [hd] at hd'
          obtain ⟨htl, hh2, hevd⟩ : tls = tls' ∧
              decide (alp = some "h2") = http2' ∧
              [Ev.dialTls host (if port = 0 then 443 else port)
                 ["h2", "http/1.1"]] = evd' := by
            simpa [Prod.ext_iff] using hd'
          subst htl; subst hh2; subst hevd
          refine ⟨fun halp => ?_, fun halp => ?_⟩
          · have hevc2 : evc = [Ev.connCreateH2 tls] := by
              rw [hevc, halp]; simp
            rw [he, het, hevc2]
            simp
          · have hd2 : decide (alp = some "h2") = false := by
              simpa using halp
            have hevc2 : evc = [Ev.connCreateH1 tls false] := by
              rw [hevc, hd2]; simp
            rw [he, het, hevc2]
            simp
        · rw [hd] at hd'
          obtain ⟨htl, hh2, hevd⟩ : tls = tls' ∧
              decide (alp = some "h2") = http2' ∧
              [Ev.dialTls host (if port = 0 then 443 else port)
                 ["h2", "http/1.1"]] = evd' := by
            simpa [Prod.ext_iff] using hd'
          subst htl; subst hh2; subst hevd
          refine ⟨fun halp => ?_, fun halp => ?_⟩
          · have hevc2 : evc = [Ev.connCreateH2 tls] := by
              rw [hevc, halp]; simp
            rw [he, het, hevc2]
            simp
          · have hd2 : decide (alp = some "h2") = false := by
              simpa using halp
            have hevc2 : evc = [Ev.connCreateH1 tls false] := by
              rw [hevc, hd2]; simp
            rw [he, het, hevc2]
            simp

/-- Witness for C4: `h2` negotiation constructs an HTTP/2 connection
and `http/1.1` negotiation constructs an HTTP/1.1 connection with the
proxied flag false, on concrete oracles. -/
theorem C4_alpn_version_witness :
    ((vlc_https_connect envOk "h" 0 false).2.2 =
       [Ev.dialTls "h" 443 ["http/1.1"]]) ∧
    (vlc_https_connect envOk "h" 0 true).1 = some 10 ∧
    Ev.connCreateH2 10 ∈ (vlc_https_request envOk mgrEmpty "h" 0 7).2.2 ∧
    Ev.connCreateH1 10 false ∈
      (vlc_https_request envAlpn1 mgrEmpty "h" 0 7).2.2 :=
  ⟨(C4_alpn_version envOk mgrEmpty "h" 0 7 false 10 (some "h2")).1,
   ((C4_alpn_version envOk mgrEmpty "h" 0 7 true 10
       (some "h2")).2.1 rfl).1,
   (((C4_alpn_version envOk mgrEmpty "h" 0 7 true 10
       (some "h2")).2.2 (by decide) (by decide) rfl rfl rfl).1 rfl),
   (((C4_alpn_version envAlpn1 mgrEmpty "h" 0 7 true 10
       (some "http/1.1")).2.2 (by decide) (by decide) rfl rfl rfl).2
     (by decide))⟩

/-- C8: default ports: a TLS dial with port 0 targets port 443; a
plaintext no-proxy dial with port 0 opens TCP to port 80; and a
plaintext dial through a proxy whose URL carries no port opens TCP to
the proxy host at port 80. -/
theorem C8_default_ports (env : Env) (host : String) (port : Nat)
    (two : Bool) (proxy phost : String) :
    (vlc_https_connect env host 0 two =
       vlc_https_connect env host 443 two ∧
     (vlc_https_connect env host 0 two).2.2 =
       [Ev.dialTls host 443
          (if two then ["h2", "http/1.1"] else ["http/1.1"])]) ∧
    (env.proxyFind host 0 false = none →
       vlc_http_connect_i11e env host 0 =
         (env.tcpOpen host 80, false, [Ev.dialTcp host 80])) ∧
    (env.proxyFind host port false = some proxy →
     env.urlParse proxy = ⟨some phost, 0⟩ →
       vlc_http_connect_i11e env host port =
         (env.tcpOpen phost 80, true, [Ev.dialTcp phost 80])) := by
  refine ⟨⟨?_, ?_⟩, ?_, ?_⟩
  · unfold vlc_https_connect
    norm_num
  · unfold vlc_https_connect
    dsimp only
    split <;> simp
  · intro h
    simp [vlc_http_connect_i11e, h]
  · intro h1 h2
    simp [vlc_http_connect_i11e, h1, h2]

/-- Witness for C8: both plaintext default-port cases on concrete
oracles. -/
theorem C8_default_ports_witness :
    vlc_http_connect_i11e envOk "h" 0 =
      (some 11, false, [Ev.dialTcp "h" 80]) ∧
    vlc_http_connect_i11e envProxy "h" 5 =
      (some 11, true, [Ev.dialTcp "proxy.test" 80]) :=
  ⟨(C8_default_ports envOk "h" 5 true "p" "proxy.test").2.1 rfl,
   (C8_default_ports envProxy "h" 5 true "p" "proxy.test").2.2 rfl rfl⟩

/-- C9: the cache lookup is host-agnostic: `vlc_http_mgr_find` returns
the cached slot for any `(host, port)` arguments, and its result does
not depend on them. -/
theorem C9_find_host_agnostic (mgr : Mgr) (h1 : String) (p1 : Nat)
    (h2 : String) (p2 : Nat) :
    vlc_http_mgr_find mgr h1 p1 = mgr.conn ∧
    vlc_http_mgr_find mgr h1 p1 = vlc_http_mgr_find mgr h2 p2 :=
  ⟨rfl, rfl⟩

end ConnMgr
